import Mathlib

/-!
Verification of the xtinychain proposer script (`change_blocktime.py`).

The script drives a consensus-change proposal through an external CLI: it
plans block heights, submits a proposal, votes with governance tokens and
monitors the proposal until the chain switches to the target algorithm.
This file embeds the script's pure logic: the JSON payloads the CLI returns
are modelled by an executable codec (`loads` / `dumps`, after Python's
`json.loads` / `json.dumps`), the text scraping by list functions over
characters, and the monitor loop by a step function on an explicit state.
-/

namespace XProposer

/-- A JSON value as the script sees one. Numbers are integers: every number
the script produces or consumes (heights, balances, ids) is an integer, so
the mantissa/exponent forms are not modelled. -/
inductive Jv where
| null : Jv
| bool (b : Bool) : Jv
| num (n : Int) : Jv
| str (s : String) : Jv
| arr (elems : List Jv) : Jv
| obj (members : List (String × Jv)) : Jv

/-- Character class of an ASCII decimal digit. -/
def isDigitCh (c : Char) : Bool := '0' ≤ c && c ≤ '9'

/-- JSON insignificant whitespace. -/
def isWsCh (c : Char) : Bool :=
  c == ' ' || c == '\n' || c == '\t' || c == Char.ofNat 13

/-- Drop leading JSON whitespace. -/
def dropWs : List Char → List Char
| [] => []
| c :: cs => if isWsCh c then dropWs cs else c :: cs

/-- Numeric value of a digit run, most significant first. -/
def digitsVal (ds : List Char) : Nat :=
  ds.foldl (fun a c => a * 10 + (c.toNat - '0'.toNat)) 0

/-- The decimal digit characters of `n`, most significant first. -/
def natChars (n : Nat) : List Char :=
  if _hlt : n < 10 then [Char.ofNat ('0'.toNat + n)]
  else natChars (n / 10) ++ [Char.ofNat ('0'.toNat + n % 10)]
decreasing_by exact Nat.div_lt_self (by omega) (by omega)

/-- The decimal character form of an integer: optional sign, then digits. -/
def intChars (i : Int) : List Char :=
  if i < 0 then '-' :: natChars i.natAbs else natChars i.natAbs

/-- Hexadecimal value of one character, if it is a hex digit. -/
def hexValCh (c : Char) : Option Nat :=
  let n := c.toNat
  if 48 ≤ n && n ≤ 57 then some (n - 48)
  else if 97 ≤ n && n ≤ 102 then some (n - 87)
  else if 65 ≤ n && n ≤ 70 then some (n - 55)
  else none

/-- A short JSON escape (the character after the backslash), decoded. -/
def shortEscape : Char → Option Char
| 'n' => some (Char.ofNat 0x0a)
| 't' => some (Char.ofNat 0x09)
| 'r' => some (Char.ofNat 0x0d)
| 'b' => some (Char.ofNat 0x08)
| 'f' => some (Char.ofNat 0x0c)
| '/' => some '/'
| '"' => some '"'
| '\\' => some '\\'
| _ => none

/-- Decode a string body after the opening quote: accumulates characters in
reverse until the closing quote, handling backslash escapes. -/
def loadStr (acc : List Char) : List Char → Option (String × List Char)
| [] => none
| '"' :: rest => some (⟨acc.reverse⟩, rest)
| '\\' :: 'u' :: u1 :: u2 :: u3 :: u4 :: rest =>
    match hexValCh u1, hexValCh u2, hexValCh u3, hexValCh u4 with
    | some w1, some w2, some w3, some w4 =>
        loadStr (Char.ofNat (((w1 * 16 + w2) * 16 + w3) * 16 + w4) :: acc) rest
    | _, _, _, _ => none
| '\\' :: e :: rest =>
    match shortEscape e with
    | some ch => loadStr (ch :: acc) rest
    | none => none
| c :: rest => loadStr (c :: acc) rest

/-- Take a maximal ASCII digit run from the front. -/
def digitRun : List Char → List Char × List Char
| [] => ([], [])
| c :: cs =>
    if isDigitCh c then
      let (ds, r) := digitRun cs
      (c :: ds, r)
    else ([], c :: cs)

/-- Decode a JSON integer: optional minus sign then at least one digit. -/
def loadInt (cs : List Char) : Option (Int × List Char) :=
  match cs with
  | '-' :: r =>
      let p := digitRun r
      if p.1.isEmpty then none else some (-(digitsVal p.1 : Int), p.2)
  | _ =>
      let p := digitRun cs
      if p.1.isEmpty then none else some ((digitsVal p.1 : Int), p.2)

mutual
/-- Decode one JSON value (fuel-indexed to make the recursion structural). -/
def loadVal : Nat → List Char → Option (Jv × List Char)
| 0, _ => none
| fuel + 1, cs =>
    match dropWs cs with
    | 'n' :: 'u' :: 'l' :: 'l' :: r => some (Jv.null, r)
    | 't' :: 'r' :: 'u' :: 'e' :: r => some (Jv.bool true, r)
    | 'f' :: 'a' :: 'l' :: 's' :: 'e' :: r => some (Jv.bool false, r)
    | '"' :: r =>
        match loadStr [] r with
        | some (s, r1) => some (.str s, r1)
        | none => none
    | '[' :: r =>
        match dropWs r with
        | ']' :: r1 => some (.arr [], r1)
        | cs1 =>
            match loadItems fuel cs1 with
            | some (es, r1) => some (.arr es, r1)
            | none => none
    | '{' :: r =>
        match dropWs r with
        | '}' :: r1 => some (.obj [], r1)
        | cs1 =>
            match loadPairs fuel cs1 with
            | some (ms, r1) => some (.obj ms, r1)
            | none => none
    | c :: r =>
        if c == '-' || isDigitCh c then
          match loadInt (c :: r) with
          | some (n, r1) => some (.num n, r1)
          | none => none
        else none
    | [] => none

/-- Decode one-or-more comma-separated array items up to the closing bracket. -/
def loadItems : Nat → List Char → Option (List Jv × List Char)
| 0, _ => none
| fuel + 1, cs =>
    match loadVal fuel cs with
    | none => none
    | some (v, r) =>
        match dropWs r with
        | ',' :: r1 =>
            match loadItems fuel r1 with
            | some (vs, r2) => some (v :: vs, r2)
            | none => none
        | ']' :: r1 => some ([v], r1)
        | _ => none

/-- Decode one-or-more `"key": value` object members up to the closing brace. -/
def loadPairs : Nat → List Char → Option (List (String × Jv) × List Char)
| 0, _ => none
| fuel + 1, cs =>
    match dropWs cs with
    | '"' :: r =>
        match loadStr [] r with
        | none => none
        | some (k, r1) =>
            match dropWs r1 with
            | ':' :: r2 =>
                match loadVal fuel r2 with
                | none => none
                | some (v, r3) =>
                    match dropWs r3 with
                    | ',' :: r4 =>
                        match loadPairs fuel r4 with
                        | some (ms, r5) => some ((k, v) :: ms, r5)
                        | none => none
                    | '}' :: r4 => some ([(k, v)], r4)
                    | _ => none
            | _ => none
    | _ => none
end

/-- Decode a complete JSON document from characters: one value and then only
whitespace, as `json.loads` demands. `none` models a raised `JSONDecodeError`. -/
def loadsL (cs : List Char) : Option Jv :=
  match loadVal (cs.length + 1) cs with
  | some (v, r) => if (dropWs r).isEmpty then some v else none
  | none => none

/-- Decode a complete JSON document, models `json.loads`. -/
def loads (s : String) : Option Jv := loadsL s.data

/-- Encode one string character: `"` and `\` are escaped, the rest is kept
literal (the payloads the script handles are plain ASCII text). -/
def escCh (c : Char) : List Char :=
  if c == '"' then ['\\', '"']
  else if c == '\\' then ['\\', '\\']
  else [c]

/-- Encode a string with its surrounding quotes. -/
def strChars (s : String) : List Char :=
  '"' :: (s.data.flatMap escCh ++ ['"'])

mutual
/-- Encode a JSON value, models `json.dumps` with its default separators
(`", "` between items, `": "` after a key). -/
def dumpsL : Jv → List Char
| .null => "null".data
| .bool true => "true".data
| .bool false => "false".data
| .num n => intChars n
| .str s => strChars s
| .arr es => '[' :: (dumpsItems es ++ [']'])
| .obj ms => '{' :: (dumpsPairs ms ++ ['}'])

/-- Encode array items, comma-and-space separated. -/
def dumpsItems : List Jv → List Char
| [] => []
| e :: es => dumpsL e ++ dumpsItemsTail es

/-- Encode the items after the first, each behind a `", "` separator. -/
def dumpsItemsTail : List Jv → List Char
| [] => []
| e :: es => ',' :: ' ' :: (dumpsL e ++ dumpsItemsTail es)

/-- Encode object members, comma-and-space separated. -/
def dumpsPairs : List (String × Jv) → List Char
| [] => []
| (ky, vl) :: rest => strChars ky ++ ':' :: ' ' :: (dumpsL vl ++ dumpsPairsTail rest)

/-- Encode the members after the first, each behind a `", "` separator. -/
def dumpsPairsTail : List (String × Jv) → List Char
| [] => []
| (ky, vl) :: rest => ',' :: ' ' :: (strChars ky ++ ':' :: ' ' :: (dumpsL vl ++ dumpsPairsTail rest))
end

/-- Encode a JSON value to a string, models `json.dumps`. -/
def dumps (v : Jv) : String := ⟨dumpsL v⟩

/-- The text after the first occurrence of `m`, if `m` occurs: models both
`m in s` (the option is some) and `s.split(m, 1)[1]` (its value). -/
def splitAfterFirst (m : List Char) : List Char → Option (List Char)
| [] => if m.isPrefixOf ([] : List Char) then some [] else none
| c :: cs =>
    if m.isPrefixOf (c :: cs) then some ((c :: cs).drop m.length)
    else splitAfterFirst m cs

/-- Substring test, models Python's `in` on strings. -/
def hasSub (s m : List Char) : Bool := (splitAfterFirst m s).isSome

/-- The label the CLI prints before an embedded JSON payload. -/
def markerCR : List Char := "contract response: ".data

/-- The same label without its trailing space: `get_proposal_status` tests for
this shorter form but splits on the longer one (lines 414 and 416). -/
def markerCRshort : List Char := "contract response:".data

/-- Strip outer whitespace, as `int()` does before reading the digits. -/
def stripWs (cs : List Char) : List Char :=
  ((cs.dropWhile isWsCh).reverse.dropWhile isWsCh).reverse

/-- Digit-run tail: each further group is a digit optionally preceded by a
single underscore, so underscores only ever sit between digits. -/
def pyDigitsRest : List Char → Bool
| [] => true
| '_' :: c :: cs => isDigitCh c && pyDigitsRest cs
| c :: cs => isDigitCh c && pyDigitsRest cs

/-- The digit part `int()` accepts: a digit, then `pyDigitsRest`. -/
def pyDigits : List Char → Bool
| [] => false
| c :: cs => isDigitCh c && pyDigitsRest cs

/-- Python `int(s)` on a string: surrounding whitespace, an optional sign,
then digits with optional underscore grouping (`"1_0"` is 10). Non-ASCII
decimal digits, which `int()` also accepts, are outside the modelled
character set. -/
def pyIntOfString (s : String) : Option Int :=
  match stripWs s.data with
  | '-' :: ds =>
      if pyDigits ds then some (-(digitsVal (ds.filter (fun c => !(c == '_'))) : Int))
      else none
  | '+' :: ds =>
      if pyDigits ds then some (digitsVal (ds.filter (fun c => !(c == '_'))) : Int)
      else none
  | ds =>
      if pyDigits ds then some (digitsVal (ds.filter (fun c => !(c == '_'))) : Int)
      else none

/-- ASCII lower-casing of one character, as `str.lower()` maps the
characters these statuses use. -/
def lowerCh (c : Char) : Char :=
  if 'A' ≤ c && c ≤ 'Z' then Char.ofNat (c.toNat + 32) else c

/-- Python `str.lower()` on the ASCII strings the script compares. -/
def pyLower (s : String) : String := ⟨s.data.map lowerCh⟩

/-- Python `int(x)` on a value decoded from JSON: `some` is the result,
`none` a raised `ValueError`/`TypeError`. `int(True) = 1` in Python. -/
def asIntPy : Jv → Option Int
| .num n => some n
| .str s => pyIntOfString s
| .bool b => some (if b then 1 else 0)
| _ => none

/-- Dictionary lookup on a decoded JSON object. `json.loads` keeps the last
value of a duplicated key, so the fold keeps the last match. -/
def jGet (ms : List (String × Jv)) (k : String) : Option Jv :=
  ms.foldl (fun acc kv => if kv.1 == k then some kv.2 else acc) none

/-- Dictionary lookup with a default, models `dict.get(k, d)`. -/
def jGetD (ms : List (String × Jv)) (k : String) (d : Jv) : Jv :=
  (jGet ms k).getD d

/-- Attempt, at the head of `s`, the pattern `lit(tok+)` with an optional
required closing character after the greedy token run. -/
def captureAt (lit : List Char) (tok : Char → Bool) (close : Option Char)
    (s : List Char) : Option (List Char) :=
  if lit.isPrefixOf s then
    let rest := s.drop lit.length
    let run := rest.takeWhile tok
    if run.isEmpty then none
    else
      match close with
      | none => some run
      | some cc =>
          match rest.drop run.length with
          | c :: _ => if c == cc then some run else none
          | [] => none
  else none

/-- First match of `lit(tok+)` scanning left to right, models `re.search`
with a literal prefix and one greedy character-class group. -/
def scanCapture (lit : List Char) (tok : Char → Bool) (close : Option Char) :
    List Char → Option (List Char)
| [] => captureAt lit tok close []
| c :: cs =>
    match captureAt lit tok close (c :: cs) with
    | some r => some r
    | none => scanCapture lit tok close cs

/-- Lowercase hexadecimal character class, the `[a-f0-9]` of the Tx id pattern. -/
def isHexLowerCh (c : Char) : Bool := ('0' ≤ c && c ≤ '9') || ('a' ≤ c && c ≤ 'f')

/-- The proposal id scraped from a submission response, models
`re.search(r"contract response: (\d+)", result)` (line 298). -/
def extract_pid (s : String) : Option String :=
  (scanCapture markerCR isDigitCh none s.data).map (fun cs => ⟨cs⟩)

/-- The transaction id scraped from a response, models
`re.search(r"Tx id: ([a-f0-9]+)", result)` (lines 299 and 396). -/
def extract_txid (s : String) : Option String :=
  (scanCapture "Tx id: ".data isHexLowerCh none s.data).map (fun cs => ⟨cs⟩)

/-! ### Height & trigger planner (`get_config_from_user`, lines 205–208) -/

/-- The proposal configuration, the script's `ProposalConfig` namedtuple.
Fields are naturals: the interactive overrides accept only digit strings and
the defaults are positive. -/
structure ProposalConfig where
  vote_duration_blocks : Nat
  trigger_buffer : Nat
  block_num_buffer : Nat
  min_vote_percent : Nat

/-- The script's `DEFAULT_CONFIG` (lines 37–42). -/
def DEFAULT_CONFIG : ProposalConfig := ⟨40, 10, 5, 51⟩

/-- The three key heights computed at the end of `get_config_from_user`
(lines 205–208), for whatever configuration survived the overrides. -/
def plan_heights (current_height : Nat) (config : ProposalConfig) : Nat × Nat × Nat :=
  let stop_vote_height := current_height + config.vote_duration_blocks
  let trigger_height := stop_vote_height + config.trigger_buffer
  let block_num_height := trigger_height + config.block_num_buffer
  (stop_vote_height, trigger_height, block_num_height)

/-! ### Governance tokens (`get_governance_tokens`, lines 335–365) -/

/-- The response text handed to `json.loads`: the part after the
`contract response: ` label when present, else the whole output
(lines 155 and 346). -/
def response_tail (s : String) : List Char :=
  match splitAfterFirst markerCR s.data with
  | some t => t
  | none => s.data

/-- The `try` body of `get_governance_tokens` (lines 344–362): `none` is any
raised exception, which line 363 turns into the return value 0. -/
def gov_tokens_body (s : String) : Option Int := do
  let j ← loadsL (response_tail s)
  match j with
  | .obj ms =>
      let total ← asIntPy (jGetD ms "total_balance" (.num 0))
      match jGetD ms "locked_balances" (.obj []) with
      | .obj lb =>
          let lo ← asIntPy (jGetD lb "ordinary" (.num 0))
          let lt ← asIntPy (jGetD lb "tdpos" (.num 0))
          some (total - lo - lt)
      | _ => none
  | _ => none

/-- `get_governance_tokens`: 0 when the query failed or the parse raised,
otherwise `total_balance - locked ordinary - locked tdpos`, unclamped. -/
def get_governance_tokens (output : Option String) : Int :=
  match output with
  | none => 0
  | some s => (gov_tokens_body s).getD 0

/-! ### Governance precondition (`check_governance_initialized`, lines 124–162) -/

/-- The balance extraction tried at lines 153–158; `none` is the `except`
path at line 160. -/
def parse_gov_balance (s : String) : Option Jv := do
  let j ← loadsL (response_tail s)
  match j with
  | .obj ms => some (jGetD ms "total_balance" (.str "0"))
  | _ => none

/-- `check_governance_initialized` on the non-interactive path: a failed query
reports `False` (line 151); a successful query reports `True` whether the
balance parsed (line 159) or not (line 162). The interactive initialization
branch (lines 130–148) consumes terminal input and is not modelled. -/
def check_governance_initialized (output : Option String) : Bool :=
  match output with
  | none => false
  | some s =>
      match parse_gov_balance s with
      | some _ => true
      | none => true

/-! ### Submission (`submit_proposal`, lines 280–333, and `main`, lines 612–617) -/

/-- Split a string into its lines, models `str.split("\n")`. -/
def splitLines : List Char → List (List Char)
| [] => [[]]
| '\n' :: cs => [] :: splitLines cs
| c :: cs =>
    match splitLines cs with
    | l :: ls => (c :: l) :: ls
    | [] => [[c]]

/-- The proposal id recovered from the submission transaction's outputs
(lines 318–327): the first line mentioning `bucket`, `proposal` and `key`
whose `"key": "(\d+)"` pattern matches. -/
def tx_fallback_pid (txOut : Option String) : Option String :=
  match txOut with
  | none => none
  | some t =>
      (splitLines t.data).findSome? (fun line =>
        if hasSub line "bucket".data && hasSub line "proposal".data
            && hasSub line "key".data then
          (scanCapture "\"key\": \"".data isDigitCh (some '"') line).map (fun cs => ⟨cs⟩)
        else none)

/-- `submit_proposal` on the non-interactive path: `none` models the `return
None` after a failed propose command (line 293); otherwise the scraped
`(pid, txid)` pair, with the transaction-query fallback for the pid when only
a txid was found (lines 317–327). The interactive confirmation and manual pid
prompt are not modelled. -/
def submit_proposal (result : Option String) (txQueryOut : Option String) :
    Option (Option String × Option String) :=
  match result with
  | none => none
  | some s =>
      let pid0 := extract_pid s
      let txid := extract_txid s
      let pid :=
        match pid0, txid with
        | none, some _ => tx_fallback_pid txQueryOut
        | p, _ => p
      some (pid, txid)

/-- The orchestrator's gate after submission, `if not pid_txid: sys.exit(1)`
(lines 614–615): `false` means the run aborts. A pair is always truthy in
Python, so only the `None` return trips the gate. -/
def main_proceeds_after_submit (r : Option (Option String × Option String)) : Bool :=
  r.isSome

/-! ### Voting (`vote_on_proposal`, lines 367–407, and `main`, lines 622–631) -/

/-- The non-interactive voting amount, `int(tokens * 0.9)` (line 376),
modelled as exact 90% truncation. For the positive balances this branch sees,
the float rounding of `0.9` does not move the truncated result. -/
def voting_amount (tokens : Int) : Int := 9 * tokens / 10

/-- The amount the vote command is issued with, or `none` when no command is
issued at all (the `tokens <= 0` early return at lines 371–373). -/
def vote_command_amount (tokens : Int) : Option Int :=
  if tokens ≤ 0 then none else some (voting_amount tokens)

/-- `vote_on_proposal` on the non-interactive path, as the transaction id it
returns: `none` when no command was issued, the command failed, or no Tx id
was scraped from its output. -/
def vote_on_proposal (tokens : Int) (result : Option String) : Option String :=
  if tokens ≤ 0 then none
  else
    match result with
    | none => none
    | some s => extract_txid s

/-- The orchestrator's voting gate, `if tokens > 0` (line 624). -/
def main_vote_gate (tokens : Int) : Bool := decide (0 < tokens)

/-! ### Current height (`get_current_height`, lines 164–178) -/

/-- `get_current_height` on the output of the status command. `.ok none`
models the `return None` paths (no output, or a caught `JSONDecodeError` /
`KeyError`, including a dict under `blockchains`, whose `[0]` raises
`KeyError`); `.error ()` marks the inputs on which the source raises instead
of returning (`TypeError`/`IndexError`/`ValueError` are outside the `except`
tuple at line 176). -/
def get_current_height (output : Option String) : Except Unit (Option Int) :=
  match output with
  | none => .ok none
  | some s =>
      match loads s with
      | none => .ok none
      | some (.obj ms) =>
          match jGet ms "blockchains" with
          | none => .ok none
          | some (.obj _) => .ok none
          | some (.arr (b :: _)) =>
              match b with
              | .obj bms =>
                  match jGet bms "ledger" with
                  | none => .ok none
                  | some (.obj lms) =>
                      match jGet lms "trunkHeight" with
                      | none => .ok none
                      | some v =>
                          match asIntPy v with
                          | some h => .ok (some h)
                          | none => .error ()
                  | some _ => .error ()
              | _ => .error ()
          | some (.arr []) => .error ()
          | some _ => .error ()
      | some _ => .error ()

/-- Python truthiness of a height value: `None` and `0` are both falsy, so
callers writing `if not current_height` cannot tell them apart. -/
def py_truthy_height (h : Option Int) : Bool :=
  match h with
  | none => false
  | some n => decide (n ≠ 0)

/-- The orchestrator's gate on the height read, `if not current_height:
sys.exit(1)` (lines 603–604): `true` means the run aborts with status 1. -/
def main_height_aborts (h : Option Int) : Bool := !(py_truthy_height h)

/-! ### Marker extraction (`get_proposal_status`, lines 412–421) -/

/-- The direct-query extraction of `get_proposal_status`: test for the
label without its trailing space, split on the label with the space, decode
the tail. `none` covers an absent marker, the `IndexError` when only the
short form occurs, and a failed decode — the caught paths at line 419. -/
def extract_json_after_marker (raw : String) : Option Jv :=
  if hasSub raw.data markerCRshort then
    match splitAfterFirst markerCR raw.data with
    | some tail => loadsL tail
    | none => none
  else none

/-! ### Consensus identity check (`check_consensus_status`, lines 458–480) -/

/-- `check_consensus_status` on the raw output of the status command: `true`
iff the decoded status carries `tdpos` (case-insensitively) in the first
blockchain's `consensusName` field or, failing that, in its nested
`consensus.name` field. Every exception inside the function is caught and
reported as `false` (lines 478–480). -/
def check_consensus_status (statusOutput : Option String) : Bool :=
  match statusOutput with
  | none => false
  | some s =>
      match loads s with
      | none => false
      | some (.obj ms) =>
          match (jGet ms "blockchains").getD (.arr [.obj []]) with
          | .arr (.obj bms :: _) =>
              (match jGetD bms "consensusName" (.str "") with
              | .str name =>
                  if pyLower name == "tdpos" then true
                  else
                    match jGetD bms "consensus" (.obj []) with
                    | .obj cms =>
                        match jGetD cms "name" (.str "") with
                        | .str n2 => pyLower n2 == "tdpos"
                        | _ => false
                    | _ => false
              | _ => false)
          | _ => false
      | some _ => false

/-! ### Monitor loop (`monitor_proposal`, lines 482–586) -/

/-- The fixed cap on checks after the trigger height (line 489). -/
def max_checks_after_trigger : Nat := 20

/-- The terminal-success statuses (line 562). -/
def success_statuses : List String := ["completed_success", "completed", "passed"]

/-- The terminal-failure statuses (line 567). -/
def failure_statuses : List String := ["rejected", "expired"]

/-- The monitor loop's mutable locals: the height of the previous iteration,
the post-trigger check counter, and the two key heights (the function's
parameters, reassigned from the proposal data when falsy). -/
structure MonitorState where
  last_height : Option Int
  checks_after_trigger : Nat
  stop_vote_height : Option Int
  trigger_height : Option Int

/-- Python falsiness of an optional integer local: `None` and `0`. -/
def py_falsy_opt_int (v : Option Int) : Bool :=
  match v with
  | none => true
  | some n => decide (n = 0)

/-- Python truthiness of a decoded JSON value: `None`, `False`, `0`, `""`,
`[]` and `{}` are falsy, everything else truthy. The loop's
`if proposal_data:` test (line 513) branches on this, so an empty object
takes the no-data branch at line 570. -/
def py_truthy_jv : Jv → Bool
| .null => false
| .bool b => b
| .num n => decide (n ≠ 0)
| .str s => !s.isEmpty
| .arr es => !es.isEmpty
| .obj ms => !ms.isEmpty

/-- What one iteration observes from the outside world: the value
`get_current_height` returned, the value `get_proposal_status` returned, and
the raw status outputs consumed by the first and (when the iteration makes
two) second `check_consensus_status` calls. A query that raises instead of
returning aborts the loop through the handler at line 585 and is not an
observation. -/
structure MonitorObs where
  height : Option Int
  proposal_data : Option Jv
  consensus1 : Option String
  consensus2 : Option String

/-- What one loop iteration did: keep polling (after a failed height read,
an unchanged height, or an ordinary pass), or leave the loop through one of
its exits. Every constructor carries the locals as the iteration left them. -/
inductive MonitorStep where
| retry (st : MonitorState)
| skip (st : MonitorState)
| poll (st : MonitorState)
| exit_success (st : MonitorState)
| exit_max_checks (st : MonitorState)
| exit_terminal (status : String) (st : MonitorState)
| exit_exception (st : MonitorState)

/-- The locals a step result carries. -/
def MonitorStep.state : MonitorStep → MonitorState
| .retry st => st
| .skip st => st
| .poll st => st
| .exit_success st => st
| .exit_max_checks st => st
| .exit_terminal _ st => st
| .exit_exception st => st

/-- Whether a step result leaves the loop. -/
def MonitorStep.isExit : MonitorStep → Bool
| .retry _ => false
| .skip _ => false
| .poll _ => false
| .exit_success _ => true
| .exit_max_checks _ => true
| .exit_terminal _ _ => true
| .exit_exception _ => true

/-- `int(proposal_data.get(outer, {}).get(inner, default))` under the `try`
at lines 517–527: a caught `ValueError`/`TypeError` from `int()` yields 0;
`none` is the uncaught `AttributeError` when the outer field is not an
object, which aborts the loop through the handler at line 585. -/
def nested_int_arg (ms : List (String × Jv)) (outer inner : String) (d : Jv) :
    Option Int :=
  match jGetD ms outer (.obj []) with
  | .obj oms => some ((asIntPy (jGetD oms inner d)).getD 0)
  | _ => none

/-- The status comparisons at lines 561–569: exit on a terminal status, where
a terminal success additionally requires the consensus check to pass before
exiting. `status.lower()` on a non-string raises (uncaught). -/
def status_branch (statusVal : Jv) (consOut : Option String) (st : MonitorState) :
    MonitorStep :=
  match statusVal with
  | .str status =>
      if success_statuses.contains (pyLower status) then
        if check_consensus_status consOut then .exit_success st else .poll st
      else if failure_statuses.contains (pyLower status) then .exit_terminal status st
      else .poll st
  | _ => .exit_exception st

/-- One iteration of the monitor loop body (lines 494–581). The
`if proposal_data:` test at line 513 is a Python truthiness test: a missing
or falsy response (such as the empty object) takes the consensus-only branch
at lines 570–576; a truthy non-object raises at `proposal_data.get` and
leaves the loop through the handler at line 585. -/
def monitor_step (verbose : Bool) (obs : MonitorObs) (st : MonitorState) :
    MonitorStep :=
  match obs.height with
  | none => .retry st
  | some h =>
      if h = 0 then .retry st
      else if st.last_height == some h && !verbose then .skip st
      else
        let st1 : MonitorState := { st with last_height := some h }
        match obs.proposal_data with
        | none =>
            if check_consensus_status obs.consensus1 then .exit_success st1
            else .poll st1
        | some pd =>
            if py_truthy_jv pd then
              match pd with
              | .obj ms =>
                  let statusVal := jGetD ms "status" (.str "unknown")
                  match
                    (if py_falsy_opt_int st1.stop_vote_height then
                      (nested_int_arg ms "args" "stop_vote_height" (.str "0")).map some
                    else some st1.stop_vote_height) with
                  | none => .exit_exception st1
                  | some sv =>
                      match
                        (if py_falsy_opt_int st1.trigger_height then
                          (nested_int_arg ms "trigger" "height" (.num 0)).map some
                        else some st1.trigger_height) with
                      | none => .exit_exception st1
                      | some tr =>
                          let st2 : MonitorState :=
                            { st1 with stop_vote_height := sv, trigger_height := tr }
                          if tr.getD 0 ≤ h then
                            let st3 : MonitorState :=
                              { st2 with checks_after_trigger := st2.checks_after_trigger + 1 }
                            if check_consensus_status obs.consensus1 then .exit_success st3
                            else if max_checks_after_trigger ≤ st3.checks_after_trigger then
                              .exit_max_checks st3
                            else status_branch statusVal obs.consensus2 st3
                          else status_branch statusVal obs.consensus1 st2
              | _ => .exit_exception st1
            else
              if check_consensus_status obs.consensus1 then .exit_success st1
              else .poll st1

/-- Run the monitor loop over a finite list of observations: stop at the
first exit, otherwise keep folding the state. A `.poll`/`.retry`/`.skip`
result at the end means the loop was still polling when the observations ran
out. -/
def monitor_run (verbose : Bool) : List MonitorObs → MonitorState → MonitorStep
| [], st => .poll st
| o :: os, st =>
    match monitor_step verbose o st with
    | .retry st' => monitor_run verbose os st'
    | .skip st' => monitor_run verbose os st'
    | .poll st' => monitor_run verbose os st'
    | r => r

/-! ### Sample payloads used by concrete evaluations -/

/-- A token-balance response whose locked amount exceeds its total. -/
def govSampleResponse : String :=
  "contract response: \x7b\"total_balance\": 5, \"locked_balances\": \x7b\"ordinary\": 10\x7d\x7d"

/-- A status response that truthfully reports a chain at height 0. -/
def statusHeightZero : String :=
  "\x7b\"blockchains\": [\x7b\"ledger\": \x7b\"trunkHeight\": 0\x7d\x7d]\x7d"

/-- A status response whose consensus name is already the target algorithm. -/
def statusTdpos : String :=
  "\x7b\"blockchains\": [\x7b\"consensusName\": \"tdpos\"\x7d]\x7d"

/-- A status response still on the original consensus algorithm. -/
def statusSingle : String :=
  "\x7b\"blockchains\": [\x7b\"consensusName\": \"single\"\x7d]\x7d"

/-- A status response carrying the target name only in the nested fallback
field, in mixed case. -/
def statusNested : String :=
  "\x7b\"blockchains\": [\x7b\"consensus\": \x7b\"name\": \"TdPoS\"\x7d\x7d]\x7d"

/-! ## Lemmas: decimal digits -/

/-- The character of a single digit carries its value and is a digit. -/
theorem digit_char_spec (k : Nat) (hk : k < 10) :
    (Char.ofNat ('0'.toNat + k)).toNat - '0'.toNat = k ∧
      isDigitCh (Char.ofNat ('0'.toNat + k)) = true := by
  interval_cases k <;> exact ⟨by decide, by decide⟩

/-- Every character `natChars` emits is a digit. -/
theorem natChars_digits (n : Nat) : ∀ c ∈ natChars n, isDigitCh c = true := by
  induction n using Nat.strong_induction_on with
  | _ n ih =>
    rw [natChars]
    by_cases h : n < 10
    · simpa [h] using (digit_char_spec n h).2
    · simp only [dif_neg h, List.mem_append, List.mem_singleton]
      rintro c (hc | rfl)
      · exact ih (n / 10) (Nat.div_lt_self (by omega) (by omega)) c hc
      · exact (digit_char_spec (n % 10) (Nat.mod_lt _ (by omega))).2

/-- `natChars` never emits the empty list. -/
theorem natChars_not_nil (n : Nat) : natChars n ≠ [] := by
  rw [natChars]
  by_cases h : n < 10 <;> simp [h]

/-- A digit rendering decomposed into its head digit and tail. -/
theorem natChars_cons_form (n : Nat) :
    ∃ c t, natChars n = c :: t ∧ isDigitCh c = true := by
  cases h : natChars n with
  | nil => exact absurd h (natChars_not_nil n)
  | cons c t => exact ⟨c, t, rfl, natChars_digits n c (h ▸ List.mem_cons_self ..)⟩

/-- `digitsVal` reads back exactly the digits `natChars` wrote. -/
theorem digitsVal_natChars (n : Nat) : digitsVal (natChars n) = n := by
  induction n using Nat.strong_induction_on with
  | _ n ih =>
    rw [natChars]
    by_cases h : n < 10
    · simp only [dif_pos h, digitsVal, List.foldl_cons, List.foldl_nil]
      rw [(digit_char_spec n h).1]
      omega
    · simp only [dif_neg h, digitsVal, List.foldl_append, List.foldl_cons, List.foldl_nil]
      have hv := ih (n / 10) (Nat.div_lt_self (by omega) (by omega))
      rw [digitsVal] at hv
      rw [hv, (digit_char_spec (n % 10) (Nat.mod_lt _ (by omega))).1]
      omega

/-- A list whose head is no digit: where a greedy digit run must stop. -/
def noDigitHead : List Char → Bool
| [] => true
| c :: _ => !isDigitCh c

/-- `digitRun` takes nothing from a list with no digit at its head. -/
theorem digitRun_stop {cs : List Char} (h : noDigitHead cs = true) :
    digitRun cs = ([], cs) := by
  cases cs with
  | nil => rfl
  | cons c t =>
      simp only [noDigitHead, Bool.not_eq_true'] at h
      simp [digitRun, h]

/-- `digitRun` consumes exactly a leading digit block. -/
theorem digitRun_exact (ds rest : List Char) (hds : ∀ c ∈ ds, isDigitCh c = true)
    (hrest : noDigitHead rest = true) : digitRun (ds ++ rest) = (ds, rest) := by
  induction ds with
  | nil =>
      rw [List.nil_append]
      exact digitRun_stop hrest
  | cons c t ih =>
      have hdt := ih (fun x hx => hds x (List.mem_cons_of_mem c hx))
      have hc := hds c (List.mem_cons_self c t)
      simp [digitRun, hc, hdt]

/-- A digit is not a sign character. -/
theorem digit_not_sign {c : Char} (h : isDigitCh c = true) :
    (c == '-') = false ∧ (c == '+') = false := by
  constructor
  · cases hb : c == '-'
    · rfl
    · rw [beq_iff_eq] at hb
      subst hb; exact absurd h (by decide)
  · cases hb : c == '+'
    · rfl
    · rw [beq_iff_eq] at hb
      subst hb; exact absurd h (by decide)

/-- `loadInt` inverts `intChars` in front of any non-digit remainder. -/
theorem loadInt_intChars (i : Int) (rest : List Char) (hrest : noDigitHead rest = true) :
    loadInt (intChars i ++ rest) = some (i, rest) := by
  by_cases hneg : i < 0
  · have harg : intChars i ++ rest = '-' :: (natChars i.natAbs ++ rest) := by
      simp [intChars, hneg]
    rw [harg]
    simp only [loadInt]
    rw [digitRun_exact _ _ (natChars_digits _) hrest]
    have hne : (natChars i.natAbs).isEmpty = false := by
      cases h : natChars i.natAbs with
      | nil => exact absurd h (natChars_not_nil _)
      | cons c t => rfl
    simp only [hne, Bool.false_eq_true, if_false, digitsVal_natChars]
    have hi : -(i.natAbs : Int) = i := by omega
    rw [hi]
  · obtain ⟨c, t, hct, hc⟩ := natChars_cons_form i.natAbs
    have harg : intChars i ++ rest = c :: (t ++ rest) := by
      simp [intChars, hneg, hct]
    rw [harg]
    rw [loadInt.eq_def]
    split
    · rename_i r heq
      rw [List.cons_eq_cons] at heq
      obtain ⟨rfl, _⟩ := heq
      exact absurd hc (by decide)
    · have hrun : digitRun (c :: (t ++ rest)) = (c :: t, rest) := by
        have := digitRun_exact (natChars i.natAbs) rest (natChars_digits _) hrest
        rwa [hct, List.cons_append] at this
      simp only [hrun, List.isEmpty_cons, Bool.false_eq_true, if_false, ← hct,
        digitsVal_natChars]
      have hi : (i.natAbs : Int) = i := by omega
      rw [hi]
      have hne : (natChars i.natAbs).isEmpty = false := by rw [hct]; rfl
      simp [hne]

/-! ## Lemmas: string bodies and whitespace -/

/-- Decoding one encoded character pushes exactly that character. -/
theorem loadStr_escCh (c : Char) (acc rest : List Char) :
    loadStr acc (escCh c ++ rest) = loadStr (c :: acc) rest := by
  by_cases h1 : c = '"'
  · subst h1; rfl
  · by_cases h2 : c = '\\'
    · subst h2; rfl
    · have he : escCh c ++ rest = c :: rest := by simp [escCh, h1, h2]
      rw [he, loadStr.eq_def]
      split
      · rename_i h; exact absurd h (by simp)
      · rename_i r h
        rw [List.cons_eq_cons] at h
        exact absurd h.1 h1
      · rename_i a b c' d r h
        rw [List.cons_eq_cons] at h
        exact absurd h.1 h2
      · rename_i e r h
        rw [List.cons_eq_cons] at h
        exact absurd h.1 h2
      · rename_i c' r h
        rw [List.cons_eq_cons] at h
        obtain ⟨rfl, rfl⟩ := h
        rfl

/-- Decoding an encoded character run stops at the closing quote and returns
exactly the run. -/
theorem loadStr_encoded (cs : List Char) : ∀ (acc rest : List Char),
    loadStr acc (cs.flatMap escCh ++ '"' :: rest) = some (⟨acc.reverse ++ cs⟩, rest) := by
  induction cs with
  | nil => intro acc rest; simp [loadStr]
  | cons c cs ih =>
      intro acc rest
      rw [List.flatMap_cons, List.append_assoc, loadStr_escCh, ih]
      simp

/-- A digit character is not whitespace and not any of the characters the
value parser dispatches on. -/
theorem digit_head_facts {c : Char} (h : isDigitCh c = true) :
    c ≠ '[' ∧ c ≠ '{' ∧ c ≠ '"' ∧ c ≠ 'n' ∧ c ≠ 't' ∧ c ≠ 'f'
      ∧ c ≠ ']' ∧ c ≠ '}' ∧ isWsCh c = false := by
  have hne : ∀ d : Char, isDigitCh d = false → c ≠ d := by
    intro d hd hcd
    rw [hcd, hd] at h
    exact Bool.false_ne_true h
  refine ⟨hne _ (by decide), hne _ (by decide), hne _ (by decide), hne _ (by decide),
    hne _ (by decide), hne _ (by decide), hne _ (by decide), hne _ (by decide), ?_⟩
  by_contra hw
  rw [Bool.not_eq_false] at hw
  have hws : ((c = ' ' ∨ c = '\n') ∨ c = '\t') ∨ c = Char.ofNat 13 := by
    simpa [isWsCh] using hw
  rcases hws with ((rfl | rfl) | rfl) | rfl <;> exact absurd h (by decide)

/-- Every encoded value starts with a visible character that closes neither
an array nor an object. -/
theorem dumpsL_head_form (v : Jv) :
    ∃ c t, dumpsL v = c :: t ∧ isWsCh c = false ∧ c ≠ ']' ∧ c ≠ '}' := by
  cases v with
  | null => refine ⟨'n', _, rfl, ?_, ?_, ?_⟩ <;> decide
  | bool b =>
      cases b with
      | false => refine ⟨'f', _, rfl, ?_, ?_, ?_⟩ <;> decide
      | true => refine ⟨'t', _, rfl, ?_, ?_, ?_⟩ <;> decide
  | str s => refine ⟨'"', _, rfl, ?_, ?_, ?_⟩ <;> decide
  | arr es => refine ⟨'[', _, rfl, ?_, ?_, ?_⟩ <;> decide
  | obj ms => refine ⟨'{', _, rfl, ?_, ?_, ?_⟩ <;> decide
  | num i =>
      by_cases hm : i < 0
      · refine ⟨'-', natChars i.natAbs, by simp [dumpsL, intChars, hm], ?_, ?_, ?_⟩ <;> decide
      · obtain ⟨c, t, hct, hc⟩ := natChars_cons_form i.natAbs
        obtain ⟨_, _, _, _, _, _, hbr, hbc, hws⟩ := digit_head_facts hc
        exact ⟨c, t, by simp [dumpsL, intChars, hm, hct], hws, hbr, hbc⟩

/-- Leading-whitespace removal is the identity on an encoded value. -/
theorem dropWs_dumpsL (v : Jv) (x : List Char) :
    dropWs (dumpsL v ++ x) = dumpsL v ++ x := by
  obtain ⟨c, t, hct, hws, _, _⟩ := dumpsL_head_form v
  rw [hct, List.cons_append]
  simp [dropWs, hws]

/-- A leading space is invisible to the value decoder. -/
theorem loadVal_space (f : Nat) (cs : List Char) :
    loadVal f (' ' :: cs) = loadVal f cs := by
  cases f with
  | zero => rfl
  | succ f =>
      simp only [loadVal]
      rw [show dropWs (' ' :: cs) = dropWs cs from by simp [dropWs, isWsCh]]

/-- A leading space is invisible to the item decoder. -/
theorem loadItems_space (f : Nat) (cs : List Char) :
    loadItems f (' ' :: cs) = loadItems f cs := by
  cases f with
  | zero => rfl
  | succ f =>
      simp only [loadItems]
      rw [loadVal_space]

/-- A leading space is invisible to the member decoder. -/
theorem loadPairs_space (f : Nat) (cs : List Char) :
    loadPairs f (' ' :: cs) = loadPairs f cs := by
  cases f with
  | zero => rfl
  | succ f =>
      simp only [loadPairs]
      rw [show dropWs (' ' :: cs) = dropWs cs from by simp [dropWs, isWsCh]]

/-! ## Lemmas: the decoder inverts the encoder -/

/-- On input headed by a character none of the keyword/string/bracket arms
accept, the value decoder reduces to its number arm. -/
theorem loadVal_default_arm (f : Nat) (c : Char) (t : List Char)
    (hws : isWsCh c = false) (hn : c ≠ 'n') (ht : c ≠ 't') (hf : c ≠ 'f')
    (hq : c ≠ '"') (hbk : c ≠ '[') (hbc : c ≠ '{') :
    loadVal (f + 1) (c :: t) =
      (if c == '-' || isDigitCh c then
        match loadInt (c :: t) with
        | some (n, r1) => some (.num n, r1)
        | none => none
      else none) := by
  have hd : dropWs (c :: t) = c :: t := by simp [dropWs, hws]
  simp only [loadVal, hd]
  split
  · rename_i h; rw [List.cons_eq_cons] at h; exact absurd h.1 hn
  · rename_i h; rw [List.cons_eq_cons] at h; exact absurd h.1 ht
  · rename_i h; rw [List.cons_eq_cons] at h; exact absurd h.1 hf
  · rename_i h; rw [List.cons_eq_cons] at h; exact absurd h.1 hq
  · rename_i h; rw [List.cons_eq_cons] at h; exact absurd h.1 hbk
  · rename_i h; rw [List.cons_eq_cons] at h; exact absurd h.1 hbc
  · rename_i c' r h
    rw [List.cons_eq_cons] at h
    obtain ⟨rfl, rfl⟩ := h
    rfl
  · rename_i h; exact absurd h (by simp)

/-- The decoder recovers an encoded integer in front of a non-digit
remainder. -/
theorem loadVal_intChars (f : Nat) (i : Int) (rest : List Char)
    (hrest : noDigitHead rest = true) :
    loadVal (f + 1) (intChars i ++ rest) = some (.num i, rest) := by
  by_cases hm : i < 0
  · have harg : intChars i ++ rest = '-' :: (natChars i.natAbs ++ rest) := by
      simp [intChars, hm]
    have step : loadVal (f + 1) ('-' :: (natChars i.natAbs ++ rest)) =
        (match loadInt ('-' :: (natChars i.natAbs ++ rest)) with
         | some (n, r1) => some (.num n, r1)
         | none => none) := rfl
    rw [harg, step, ← harg, loadInt_intChars i rest hrest]
  · obtain ⟨c, t, hct, hc⟩ := natChars_cons_form i.natAbs
    obtain ⟨hbk, hbc, hq, hn, htc, hfc, _, _, hws⟩ := digit_head_facts hc
    have harg : intChars i ++ rest = c :: (t ++ rest) := by
      simp [intChars, hm, hct]
    rw [harg, loadVal_default_arm f c _ hws hn htc hfc hq hbk hbc]
    rw [← harg, loadInt_intChars i rest hrest]
    simp [hc]

/-- The decoder's array arm wraps the item decoder when the item list is
nonempty (its head is never `]`). -/
theorem loadVal_arr_arm (f : Nat) (e : Jv) (es : List Jv) (rest : List Char) :
    loadVal (f + 1) ('[' :: (dumpsItems (e :: es) ++ ']' :: rest)) =
      (match loadItems f (dumpsItems (e :: es) ++ ']' :: rest) with
       | some (vs, r1) => some (.arr vs, r1)
       | none => none) := by
  have step : loadVal (f + 1) ('[' :: (dumpsItems (e :: es) ++ ']' :: rest)) =
      (match dropWs (dumpsItems (e :: es) ++ ']' :: rest) with
       | ']' :: r1 => some (.arr [], r1)
       | cs1 =>
           match loadItems f cs1 with
           | some (vs, r1) => some (.arr vs, r1)
           | none => none) := rfl
  obtain ⟨c, t, hct, hws, hbr, _⟩ := dumpsL_head_form e
  have hcons : dumpsItems (e :: es) ++ ']' :: rest
      = c :: (t ++ dumpsItemsTail es ++ ']' :: rest) := by
    simp only [dumpsItems, hct, List.cons_append, List.append_assoc]
  have hdws : dropWs (dumpsItems (e :: es) ++ ']' :: rest)
      = dumpsItems (e :: es) ++ ']' :: rest := by
    rw [hcons]
    simp [dropWs, hws]
  rw [step, hdws, hcons]
  split
  · rename_i r1 h
    rw [List.cons_eq_cons] at h
    exact absurd h.1 hbr
  · rfl

/-- The decoder's object arm wraps the member decoder when the member list is
nonempty (its head is a key's opening quote, never `}`). -/
theorem loadVal_obj_arm (f : Nat) (k : String) (v : Jv) (ms : List (String × Jv))
    (rest : List Char) :
    loadVal (f + 1) ('{' :: (dumpsPairs ((k, v) :: ms) ++ '}' :: rest)) =
      (match loadPairs f (dumpsPairs ((k, v) :: ms) ++ '}' :: rest) with
       | some (ps, r1) => some (.obj ps, r1)
       | none => none) := by
  have step : loadVal (f + 1) ('{' :: (dumpsPairs ((k, v) :: ms) ++ '}' :: rest)) =
      (match dropWs (dumpsPairs ((k, v) :: ms) ++ '}' :: rest) with
       | '}' :: r1 => some (.obj [], r1)
       | cs1 =>
           match loadPairs f cs1 with
           | some (ps, r1) => some (.obj ps, r1)
           | none => none) := rfl
  have hcons : dumpsPairs ((k, v) :: ms) ++ '}' :: rest
      = '"' :: (k.data.flatMap escCh ++ ['"'] ++ (':' :: ' ' :: (dumpsL v ++ dumpsPairsTail ms)) ++ '}' :: rest) := by
    simp only [dumpsPairs, strChars, List.cons_append, List.append_assoc]
  have hdws : dropWs (dumpsPairs ((k, v) :: ms) ++ '}' :: rest)
      = dumpsPairs ((k, v) :: ms) ++ '}' :: rest := by
    rw [hcons]
    simp [dropWs, isWsCh]
  rw [step, hdws, hcons]
  split
  · rename_i r1 h
    rw [List.cons_eq_cons] at h
    exact absurd h.1 (by decide)
  · rfl

/-- The item decoder at successor fuel, unfolded once. -/
theorem loadItems_step (f : Nat) (cs : List Char) :
    loadItems (f + 1) cs =
      (match loadVal f cs with
       | none => none
       | some (v, r) =>
           match dropWs r with
           | ',' :: r1 =>
               match loadItems f r1 with
               | some (vs, r2) => some (v :: vs, r2)
               | none => none
           | ']' :: r1 => some ([v], r1)
           | _ => none) := rfl

/-- The member decoder at successor fuel, unfolded once. -/
theorem loadPairs_step (f : Nat) (cs : List Char) :
    loadPairs (f + 1) cs =
      (match dropWs cs with
       | '"' :: r =>
           match loadStr [] r with
           | none => none
           | some (k, r1) =>
               match dropWs r1 with
               | ':' :: r2 =>
                   match loadVal f r2 with
                   | none => none
                   | some (v, r3) =>
                       match dropWs r3 with
                       | ',' :: r4 =>
                           match loadPairs f r4 with
                           | some (ms, r5) => some ((k, v) :: ms, r5)
                           | none => none
                       | '}' :: r4 => some ([(k, v)], r4)
                       | _ => none
               | _ => none
       | _ => none) := rfl

/-- Whitespace removal ignores a leading quote. -/
theorem dropWs_quote (cs : List Char) : dropWs ('"' :: cs) = '"' :: cs := rfl

/-- Whitespace removal ignores a leading colon. -/
theorem dropWs_colon (cs : List Char) : dropWs (':' :: cs) = ':' :: cs := rfl

/-- Whitespace removal ignores a leading comma. -/
theorem dropWs_comma (cs : List Char) : dropWs (',' :: cs) = ',' :: cs := rfl

/-- Whitespace removal ignores a leading closing brace. -/
theorem dropWs_cbrace (cs : List Char) : dropWs ('}' :: cs) = '}' :: cs := rfl

/-- Whitespace removal ignores a leading closing bracket. -/
theorem dropWs_cbrack (cs : List Char) : dropWs (']' :: cs) = ']' :: cs := rfl

/-- The member separator starts a fresh member rendering. -/
theorem dumpsPairsTail_cons (k2 : String) (v2 : Jv) (ms : List (String × Jv)) :
    dumpsPairsTail ((k2, v2) :: ms) = ',' :: ' ' :: dumpsPairs ((k2, v2) :: ms) := rfl

/-- The item separator starts a fresh item rendering. -/
theorem dumpsItemsTail_cons (x : Jv) (xs : List Jv) :
    dumpsItemsTail (x :: xs) = ',' :: ' ' :: dumpsItems (x :: xs) := rfl

mutual
/-- Decoding a rendered value in front of a non-digit remainder recovers the
value exactly, given enough fuel. -/
theorem rt_val : ∀ (v : Jv) (f : Nat) (rest : List Char),
    (dumpsL v).length < f → noDigitHead rest = true →
    loadVal f (dumpsL v ++ rest) = some (v, rest)
| .null, f, rest, hf, _ => by
    cases f with
    | zero => omega
    | succ f => rfl
| .bool b, f, rest, hf, _ => by
    cases f with
    | zero => omega
    | succ f => cases b <;> rfl
| .num i, f, rest, hf, hr => by
    cases f with
    | zero => omega
    | succ f => exact loadVal_intChars f i rest hr
| .str s, f, rest, hf, _ => by
    cases f with
    | zero => omega
    | succ f =>
        have harg : dumpsL (.str s) ++ rest
            = '"' :: (s.data.flatMap escCh ++ '"' :: rest) := by
          simp [dumpsL, strChars]
        have hstr := loadStr_encoded s.data [] rest
        rw [harg]
        have step : loadVal (f + 1) ('"' :: (s.data.flatMap escCh ++ '"' :: rest)) =
            (match loadStr [] (s.data.flatMap escCh ++ '"' :: rest) with
             | some (s1, r1) => some (.str s1, r1)
             | none => none) := rfl
        rw [step, hstr]
        simp
| .arr [], f, rest, hf, _ => by
    cases f with
    | zero => omega
    | succ f => rfl
| .arr (e :: es), f, rest, hf, _ => by
    cases f with
    | zero => omega
    | succ f =>
        have harr : dumpsL (.arr (e :: es)) ++ rest
            = '[' :: (dumpsItems (e :: es) ++ ']' :: rest) := by
          simp [dumpsL]
        have hlen : (dumpsItems (e :: es)).length + 1 < f := by
          have h2 : (dumpsL (.arr (e :: es))).length
              = (dumpsItems (e :: es)).length + 2 := by
            simp [dumpsL]
          omega
        rw [harr, loadVal_arr_arm, rt_items e es f rest hlen]
| .obj [], f, rest, hf, _ => by
    cases f with
    | zero => omega
    | succ f => rfl
| .obj ((k, v) :: ms), f, rest, hf, _ => by
    cases f with
    | zero => omega
    | succ f =>
        have hobj : dumpsL (.obj ((k, v) :: ms)) ++ rest
            = '{' :: (dumpsPairs ((k, v) :: ms) ++ '}' :: rest) := by
          simp [dumpsL]
        have hlen : (dumpsPairs ((k, v) :: ms)).length + 1 < f := by
          have h2 : (dumpsL (.obj ((k, v) :: ms))).length
              = (dumpsPairs ((k, v) :: ms)).length + 2 := by
            simp [dumpsL]
          omega
        rw [hobj, loadVal_obj_arm, rt_pairs k v ms f rest hlen]
termination_by v _ _ _ _ => sizeOf v

/-- Decoding rendered items followed by `]` recovers the item list. -/
theorem rt_items : ∀ (e : Jv) (es : List Jv) (f : Nat) (rest : List Char),
    (dumpsItems (e :: es)).length + 1 < f →
    loadItems f (dumpsItems (e :: es) ++ ']' :: rest) = some (e :: es, rest)
| e, [], f, rest, hf => by
    cases f with
    | zero => omega
    | succ f =>
        have harg : dumpsItems (e :: []) ++ ']' :: rest = dumpsL e ++ ']' :: rest := by
          simp [dumpsItems, dumpsItemsTail]
        have hfe : (dumpsL e).length < f := by
          have h2 : (dumpsItems (e :: [])).length = (dumpsL e).length := by
            simp [dumpsItems, dumpsItemsTail]
          omega
        have hv := rt_val e f (']' :: rest) hfe rfl
        rw [harg, loadItems_step, hv]
        rfl
| e, x :: xs, f, rest, hf => by
    cases f with
    | zero => omega
    | succ f =>
        have harg : dumpsItems (e :: x :: xs) ++ ']' :: rest
            = dumpsL e ++ (',' :: ' ' :: (dumpsItems (x :: xs) ++ ']' :: rest)) := by
          simp [dumpsItems, dumpsItemsTail_cons]
        have hlens : (dumpsItems (e :: x :: xs)).length
            = (dumpsL e).length + 2 + (dumpsItems (x :: xs)).length := by
          simp [dumpsItems, dumpsItemsTail_cons]
          omega
        have hfe : (dumpsL e).length < f := by omega
        have hfx : (dumpsItems (x :: xs)).length + 1 < f := by omega
        have hv := rt_val e f (',' :: ' ' :: (dumpsItems (x :: xs) ++ ']' :: rest)) hfe rfl
        have hx := rt_items x xs f rest hfx
        rw [harg, loadItems_step, hv]
        simp [dropWs_comma, loadItems_space, hx]
termination_by e es _ _ _ => sizeOf e + sizeOf es

/-- Decoding rendered members followed by `}` recovers the member list. -/
theorem rt_pairs : ∀ (k : String) (v : Jv) (ms : List (String × Jv)) (f : Nat)
    (rest : List Char),
    (dumpsPairs ((k, v) :: ms)).length + 1 < f →
    loadPairs f (dumpsPairs ((k, v) :: ms) ++ '}' :: rest) = some ((k, v) :: ms, rest)
| k, v, [], f, rest, hf => by
    cases f with
    | zero => omega
    | succ f =>
        have harg : dumpsPairs ((k, v) :: []) ++ '}' :: rest
            = '"' :: (k.data.flatMap escCh
                ++ '"' :: (':' :: ' ' :: (dumpsL v ++ '}' :: rest))) := by
          simp [dumpsPairs, dumpsPairsTail, strChars]
        have hfe : (dumpsL v).length < f := by
          have h2 : (dumpsPairs ((k, v) :: [])).length
              = (strChars k).length + 2 + (dumpsL v).length := by
            simp [dumpsPairs, dumpsPairsTail]
            omega
          omega
        have hstr := loadStr_encoded k.data [] (':' :: ' ' :: (dumpsL v ++ '}' :: rest))
        have hv := rt_val v f ('}' :: rest) hfe rfl
        rw [harg, loadPairs_step]
        simp [hstr, dropWs_quote, dropWs_colon, dropWs_cbrace, loadVal_space, hv]
| k, v, (k2, v2) :: ms, f, rest, hf => by
    cases f with
    | zero => omega
    | succ f =>
        have harg : dumpsPairs ((k, v) :: (k2, v2) :: ms) ++ '}' :: rest
            = '"' :: (k.data.flatMap escCh
                ++ '"' :: (':' :: ' ' :: (dumpsL v
                    ++ (',' :: ' ' :: (dumpsPairs ((k2, v2) :: ms) ++ '}' :: rest))))) := by
          simp [dumpsPairs, dumpsPairsTail_cons, strChars]
        have hlens : (dumpsPairs ((k, v) :: (k2, v2) :: ms)).length
            = (strChars k).length + 2 + (dumpsL v).length + 2
              + (dumpsPairs ((k2, v2) :: ms)).length := by
          simp [dumpsPairs, dumpsPairsTail_cons]
          omega
        have hfe : (dumpsL v).length < f := by
          have h3 : 0 < (strChars k).length := by simp [strChars]
          omega
        have hfx : (dumpsPairs ((k2, v2) :: ms)).length + 1 < f := by omega
        have hstr := loadStr_encoded k.data []
          (':' :: ' ' :: (dumpsL v ++ (',' :: ' ' :: (dumpsPairs ((k2, v2) :: ms) ++ '}' :: rest))))
        have hv := rt_val v f
          (',' :: ' ' :: (dumpsPairs ((k2, v2) :: ms) ++ '}' :: rest)) hfe rfl
        have hx := rt_pairs k2 v2 ms f rest hfx
        rw [harg, loadPairs_step]
        simp [hstr, dropWs_quote, dropWs_colon, dropWs_comma, loadVal_space, hv, loadPairs_space, hx]
termination_by k v ms _ _ _ => sizeOf v + sizeOf ms
end

/-- The codec round-trip at the character level. -/
theorem loadsL_dumpsL (v : Jv) : loadsL (dumpsL v) = some v := by
  have h := rt_val v ((dumpsL v).length + 1) [] (by omega) rfl
  rw [List.append_nil] at h
  simp [loadsL, h, dropWs]

/-- The codec round-trip: `json.loads` inverts `json.dumps`. -/
theorem loads_dumps (v : Jv) : loads (dumps v) = some v := loadsL_dumpsL v

/-! ## Lemmas: marker occurrence -/

/-- The boolean prefix test, characterized. -/
theorem isPrefixOf_eq_true (m l : List Char) :
    m.isPrefixOf l = true ↔ ∃ t, m ++ t = l := by
  induction m generalizing l with
  | nil => simp [List.isPrefixOf]
  | cons a as ih =>
      cases l with
      | nil => simp [List.isPrefixOf]
      | cons b bs =>
          constructor
          · intro h
            rw [List.isPrefixOf, Bool.and_eq_true, beq_iff_eq] at h
            obtain ⟨rfl, h2⟩ := h
            obtain ⟨t, rfl⟩ := (ih bs).mp h2
            exact ⟨t, rfl⟩
          · rintro ⟨t, ht⟩
            rw [List.cons_append, List.cons_eq_cons] at ht
            obtain ⟨rfl, ht2⟩ := ht
            rw [List.isPrefixOf, Bool.and_eq_true, beq_iff_eq]
            exact ⟨rfl, (ih bs).mpr ⟨t, ht2⟩⟩

/-- Splitting right at a marker occurrence returns everything after it. -/
theorem splitAfterFirst_here (m s : List Char) :
    splitAfterFirst m (m ++ s) = some s := by
  cases hm : m with
  | nil =>
      cases s with
      | nil => rfl
      | cons c cs => simp [splitAfterFirst, List.isPrefixOf]
  | cons a as =>
      have hp : (a :: as).isPrefixOf ((a :: as) ++ s) = true :=
        (isPrefixOf_eq_true _ _).mpr ⟨s, rfl⟩
      rw [List.cons_append, splitAfterFirst, ← List.cons_append, hp]
      simp [List.drop_left]

/-- The split succeeds exactly on inputs that contain the marker. -/
theorem splitAfterFirst_isSome_iff (m s : List Char) :
    (splitAfterFirst m s).isSome = true ↔ ∃ p q, s = p ++ m ++ q := by
  induction s with
  | nil =>
      cases m with
      | nil => simp [splitAfterFirst, List.isPrefixOf]
      | cons a as => simp [splitAfterFirst, List.isPrefixOf]
  | cons c cs ih =>
      by_cases hp : m.isPrefixOf (c :: cs) = true
      · simp only [splitAfterFirst, hp, if_true, Option.isSome_some, true_iff]
        obtain ⟨t, ht⟩ := (isPrefixOf_eq_true _ _).mp hp
        exact ⟨[], t, by simp [← ht]⟩
      · rw [Bool.not_eq_true] at hp
        simp only [splitAfterFirst, hp, Bool.false_eq_true, if_false]
        rw [ih]
        constructor
        · rintro ⟨p, q, rfl⟩
          exact ⟨c :: p, q, rfl⟩
        · rintro ⟨p, q, hpq⟩
          cases p with
          | nil =>
              exfalso
              simp only [List.nil_append] at hpq
              have : m.isPrefixOf (c :: cs) = true :=
                (isPrefixOf_eq_true _ _).mpr ⟨q, hpq.symm⟩
              rw [hp] at this
              exact Bool.false_ne_true this
          | cons d ds =>
              rw [List.cons_append, List.cons_append, List.cons_eq_cons] at hpq
              exact ⟨ds, q, hpq.2⟩

/-- The marker has no self-overlap: no proper nonempty suffix-shifted copy of
it is a prefix of it, so an occurrence cannot straddle the prefix boundary. -/
theorem markerCR_no_overlap :
    ∀ k : Fin markerCR.length,
      k.val = 0 ∨ (markerCR.drop k.val).isPrefixOf markerCR = false := by decide

/-- Splitting on the marker lands exactly at the boundary when the prose
before it does not itself contain the marker. -/
theorem splitAfterFirst_markerCR (p s : List Char) (hp : hasSub p markerCR = false) :
    splitAfterFirst markerCR (p ++ (markerCR ++ s)) = some s := by
  induction p with
  | nil => simpa using splitAfterFirst_here markerCR s
  | cons c cs ih =>
      have hps : markerCR.isPrefixOf (c :: cs) = false ∧ hasSub cs markerCR = false := by
        by_cases h1 : markerCR.isPrefixOf (c :: cs) = true
        · exfalso
          rw [hasSub, splitAfterFirst, h1] at hp
          simp at hp
        · rw [Bool.not_eq_true] at h1
          constructor
          · exact h1
          · rw [hasSub, splitAfterFirst, h1] at hp
            simpa [hasSub] using hp
      have hnp : markerCR.isPrefixOf ((c :: cs) ++ (markerCR ++ s)) = false := by
        by_contra hcon
        rw [Bool.not_eq_false] at hcon
        obtain ⟨t, ht⟩ := (isPrefixOf_eq_true _ _).mp hcon
        have h1 : markerCR <+: ((c :: cs) ++ (markerCR ++ s)) := ⟨t, ht⟩
        have h2 : (c :: cs) <+: ((c :: cs) ++ (markerCR ++ s)) := ⟨markerCR ++ s, rfl⟩
        by_cases hlen : markerCR.length ≤ (c :: cs).length
        · have h3 : markerCR <+: (c :: cs) := List.prefix_of_prefix_length_le h1 h2 hlen
          obtain ⟨u, hu⟩ := h3
          have : hasSub (c :: cs) markerCR = true := by
            rw [hasSub, splitAfterFirst_isSome_iff]
            exact ⟨[], u, by simp [← hu]⟩
          rw [hp] at this
          exact Bool.false_ne_true this
        · push_neg at hlen
          have h3 : (c :: cs) <+: markerCR :=
            List.prefix_of_prefix_length_le h2 h1 (by omega)
          obtain ⟨u, hu⟩ := h3
          have hu2 : u ++ t = markerCR ++ s := by
            have h4 := ht
            nth_rewrite 1 [← hu] at h4
            rw [List.append_assoc] at h4
            exact List.append_cancel_left h4
          have hulen : u.length = markerCR.length - (c :: cs).length := by
            have h5 := congrArg List.length hu
            simp only [List.length_append] at h5
            omega
          have hu3 : u <+: markerCR := by
            have h4 : u <+: markerCR ++ s := ⟨t, hu2⟩
            have h5 : markerCR <+: markerCR ++ s := ⟨s, rfl⟩
            exact List.prefix_of_prefix_length_le h4 h5 (by omega)
          have hu4 : markerCR.drop (c :: cs).length = u := by
            rw [← hu]
            exact List.drop_left _ _
          rcases markerCR_no_overlap ⟨(c :: cs).length, hlen⟩ with h0 | hno
          · simp at h0
          · rw [hu4] at hno
            obtain ⟨w, hw⟩ := hu3
            have : u.isPrefixOf markerCR = true := (isPrefixOf_eq_true _ _).mpr ⟨w, hw⟩
            rw [hno] at this
            exact Bool.false_ne_true this
      rw [List.cons_append, splitAfterFirst, ← List.cons_append, hnp]
      simp only [Bool.false_eq_true, if_false]
      exact ih hps.2

/-- The marker with its trailing space extends the short marker by one blank. -/
theorem markerCR_eq_short : markerCR = markerCRshort ++ [' '] := by decide

/-! ## Claim theorems -/

/-- C1: the planner computes `stop_vote_height = currentHeight +
vote_duration_blocks`, `trigger_height = stop_vote_height + trigger_buffer`
and `block_num_height = trigger_height + block_num_buffer`; the four heights
are ordered, strictly wherever the corresponding increment is positive, and
height 1000 under config (40, 10, 5) plans (1040, 1050, 1055). -/
theorem plan_heights_spec (h : Nat) (c : ProposalConfig) :
    plan_heights h c =
      (h + c.vote_duration_blocks,
        h + c.vote_duration_blocks + c.trigger_buffer,
        h + c.vote_duration_blocks + c.trigger_buffer + c.block_num_buffer) ∧
    h ≤ (plan_heights h c).1 ∧
    (plan_heights h c).1 ≤ (plan_heights h c).2.1 ∧
    (plan_heights h c).2.1 ≤ (plan_heights h c).2.2 ∧
    (0 < c.vote_duration_blocks → h < (plan_heights h c).1) ∧
    (0 < c.trigger_buffer → (plan_heights h c).1 < (plan_heights h c).2.1) ∧
    (0 < c.block_num_buffer → (plan_heights h c).2.1 < (plan_heights h c).2.2) ∧
    plan_heights 1000 ⟨40, 10, 5, 51⟩ = (1040, 1050, 1055) := by
  refine ⟨rfl, ?_, ?_, ?_, fun hp => ?_, fun hp => ?_, fun hp => ?_, rfl⟩ <;>
    simp [plan_heights] <;> omega

/-- C1 witness: the spec's scenario, through the theorem. -/
theorem plan_heights_spec_witness :
    plan_heights 1000 DEFAULT_CONFIG = (1040, 1050, 1055) ∧
    1000 < (plan_heights 1000 DEFAULT_CONFIG).1 :=
  ⟨(plan_heights_spec 1000 DEFAULT_CONFIG).2.2.2.2.2.2.2,
   (plan_heights_spec 1000 DEFAULT_CONFIG).2.2.2.2.1 (by decide)⟩

/-- C2 counterexample: on a response whose locked amount exceeds its total,
`get_governance_tokens` returns the negative difference −5, not the clamped
value `max 0 (total − locked)` = 0 the claim describes. -/
theorem gov_available_clamp_refuted :
    get_governance_tokens (some govSampleResponse) = -5 ∧
    get_governance_tokens (some govSampleResponse) ≠ max 0 (5 - 10 - 0) := by
  refine ⟨rfl, ?_⟩
  intro hcon
  rw [show get_governance_tokens (some govSampleResponse) = -5 from rfl] at hcon
  exact absurd hcon (by decide)

/-- C2 amended: the available balance is the raw difference `total −
locked_ordinary − locked_tdpos`, with no clamping (it can be negative); the
orchestrator's voting gate `tokens > 0` is what keeps a non-positive count
away from the voting stage. -/
theorem gov_available_unclamped :
    (∀ total lo lt : Int,
      get_governance_tokens (some ⟨markerCR ++ dumpsL (.obj
        [("total_balance", .num total),
         ("locked_balances", .obj [("ordinary", .num lo), ("tdpos", .num lt)])])⟩)
        = total - lo - lt) ∧
    (∀ t : Int, main_vote_gate t = true ↔ 0 < t) := by
  constructor
  · intro total lo lt
    have htail : response_tail ⟨markerCR ++ dumpsL (.obj
        [("total_balance", .num total),
         ("locked_balances", .obj [("ordinary", .num lo), ("tdpos", .num lt)])])⟩
        = dumpsL (.obj
        [("total_balance", .num total),
         ("locked_balances", .obj [("ordinary", .num lo), ("tdpos", .num lt)])]) := by
      unfold response_tail
      rw [show (⟨markerCR ++ dumpsL (.obj
        [("total_balance", .num total),
         ("locked_balances", .obj [("ordinary", .num lo), ("tdpos", .num lt)])])⟩ :
          String).data = markerCR ++ dumpsL (.obj
        [("total_balance", .num total),
         ("locked_balances", .obj [("ordinary", .num lo), ("tdpos", .num lt)])]) from rfl]
      rw [splitAfterFirst_here]
    show (gov_tokens_body _).getD 0 = total - lo - lt
    unfold gov_tokens_body
    rw [htail, loadsL_dumpsL]
    simp [jGetD, jGet, asIntPy]
  · intro t
    simp [main_vote_gate]

/-- C6 counterexample: a successful propose command whose output carries
neither a proposal id nor a transaction id still yields a truthy pair
`(None, None)`, and the orchestrator's `if not pid_txid` gate lets the run
proceed instead of aborting. -/
theorem submit_gate_refuted :
    extract_pid "ok" = none ∧ extract_txid "ok" = none ∧
    submit_proposal (some "ok") none = some (none, none) ∧
    main_proceeds_after_submit (submit_proposal (some "ok") none) = true :=
  ⟨rfl, rfl, rfl, rfl⟩

/-- C6 amended: the gate after submission aborts exactly when the propose
command itself failed (or was cancelled), i.e. when `submit_proposal`
returned `None`; a successful command with no extractable identifier returns
the truthy pair `(None, None)` and the run proceeds. -/
theorem submit_gate_amended :
    (∀ (r txq : Option String),
      main_proceeds_after_submit (submit_proposal r txq) = false ↔ r = none) ∧
    (∀ (s : String) (txq : Option String),
      extract_pid s = none → extract_txid s = none →
      submit_proposal (some s) txq = some (none, none)) := by
  constructor
  · intro r txq
    cases r with
    | none => simp [submit_proposal, main_proceeds_after_submit]
    | some s => simp [submit_proposal, main_proceeds_after_submit]
  · intro s txq h1 h2
    simp [submit_proposal, h1, h2]

/-- C6 amended witness: the gate at concrete inputs, through the theorem. -/
theorem submit_gate_amended_witness :
    submit_proposal (some "ok") none = some (none, none) ∧
    main_proceeds_after_submit (submit_proposal none none) = false :=
  ⟨submit_gate_amended.2 "ok" none rfl rfl,
   (submit_gate_amended.1 none none).mpr rfl⟩

/-- C8: when the governance-token query produced output but the balance
cannot be parsed from it, `check_governance_initialized` still reports
`True` (the warning path at line 162), so the run proceeds with degraded
information. -/
theorem governance_check_parse_fallback (s : String)
    (hp : parse_gov_balance s = none) :
    check_governance_initialized (some s) = true := by
  simp [check_governance_initialized, hp]

/-- C8 witness: an unparseable response, through the theorem. -/
theorem governance_check_parse_fallback_witness :
    parse_gov_balance "not json" = none ∧
    check_governance_initialized (some "not json") = true :=
  ⟨rfl, governance_check_parse_fallback "not json" rfl⟩

/-- C9: in non-interactive mode a positive balance is voted with
`int(tokens * 0.9)` — strictly less than the full balance — and a
non-positive balance issues no vote command and returns no transaction id. -/
theorem vote_amount_spec (t : Int) (r : Option String) :
    (t ≤ 0 → vote_command_amount t = none ∧ vote_on_proposal t r = none) ∧
    (0 < t → vote_command_amount t = some (9 * t / 10) ∧ voting_amount t < t) := by
  constructor
  · intro ht
    exact ⟨by simp [vote_command_amount, ht], by simp [vote_on_proposal, ht]⟩
  · intro ht
    constructor
    · simp [vote_command_amount, voting_amount, not_le.mpr ht]
    · unfold voting_amount
      omega

/-- C9 witness: a balance of 100 votes 90 tokens; a balance of 0 votes
nothing, through the theorem. -/
theorem vote_amount_spec_witness :
    vote_command_amount 100 = some 90 ∧ voting_amount 100 < 100 ∧
    vote_command_amount 0 = none ∧ vote_on_proposal 0 none = none :=
  ⟨by rw [((vote_amount_spec 100 none).2 (by decide)).1]; decide,
   ((vote_amount_spec 100 none).2 (by decide)).2,
   ((vote_amount_spec 0 none).1 (by decide)).1,
   ((vote_amount_spec 0 none).1 (by decide)).2⟩

/-- C10: a chain truthfully at height 0 parses to `some 0`, which every
caller's truthiness test (`if not current_height`) conflates with the `None`
of a failed read: the orchestrator aborts with exit status 1 and the monitor
loop takes its retry-after-delay path, exactly as for `None`. -/
theorem height_zero_indistinguishable :
    get_current_height (some statusHeightZero) = .ok (some 0) ∧
    main_height_aborts (some 0) = true ∧
    main_height_aborts none = true ∧
    (∀ (verbose : Bool) (obs : MonitorObs) (st : MonitorState),
      obs.height = some 0 → monitor_step verbose obs st = .retry st) ∧
    (∀ (verbose : Bool) (obs : MonitorObs) (st : MonitorState),
      obs.height = none → monitor_step verbose obs st = .retry st) := by
  refine ⟨rfl, rfl, rfl, ?_, ?_⟩
  · intro verbose obs st h
    unfold monitor_step
    rw [h]
    simp
  · intro verbose obs st h
    unfold monitor_step
    rw [h]

/-- C10 witness: both a zero height and a missing height make the monitor
retry, through the theorem. -/
theorem height_zero_indistinguishable_witness :
    monitor_step false ⟨some 0, none, none, none⟩ ⟨none, 0, none, none⟩
      = .retry ⟨none, 0, none, none⟩ ∧
    monitor_step false ⟨none, none, none, none⟩ ⟨none, 0, none, none⟩
      = .retry ⟨none, 0, none, none⟩ :=
  ⟨height_zero_indistinguishable.2.2.2.1 false _ _ rfl,
   height_zero_indistinguishable.2.2.2.2 false _ _ rfl⟩

/-- C7: extraction after the contract-response marker round-trips — for any
prose prefix free of the marker, `p + marker + dumps(v)` extracts back to
`v` — and returns `none` rather than raising both when the marker (the
short form the code tests for) is absent and when the tail after the split
is not valid JSON. -/
theorem extract_json_after_marker_spec :
    (∀ (p : List Char) (v : Jv), hasSub p markerCR = false →
      extract_json_after_marker ⟨p ++ (markerCR ++ dumpsL v)⟩ = some v) ∧
    (∀ s : String, hasSub s.data markerCRshort = false →
      extract_json_after_marker s = none) ∧
    (∀ (s : String) (tail : List Char),
      splitAfterFirst markerCR s.data = some tail → loadsL tail = none →
      extract_json_after_marker s = none) := by
  refine ⟨?_, ?_, ?_⟩
  · intro p v hp
    unfold extract_json_after_marker
    rw [show (⟨p ++ (markerCR ++ dumpsL v)⟩ : String).data
        = p ++ (markerCR ++ dumpsL v) from rfl]
    have hshort : hasSub (p ++ (markerCR ++ dumpsL v)) markerCRshort = true := by
      rw [hasSub, splitAfterFirst_isSome_iff]
      exact ⟨p, ' ' :: dumpsL v, by rw [markerCR_eq_short]; simp⟩
    rw [hshort, if_pos rfl, splitAfterFirst_markerCR p (dumpsL v) hp]
    simp [loadsL_dumpsL]
  · intro s hs
    unfold extract_json_after_marker
    rw [hs]
    simp
  · intro s tail hsplit hnone
    unfold extract_json_after_marker
    cases hc : hasSub s.data markerCRshort with
    | false => simp
    | true => simp [hsplit, hnone]

/-! ## Lemmas: the monitor loop -/

/-- The status comparisons never touch the loop's locals. -/
theorem status_branch_state (sv : Jv) (co : Option String) (st : MonitorState) :
    (status_branch sv co st).state = st := by
  unfold status_branch
  cases sv <;> try rfl
  repeat' split
  all_goals rfl

/-- A terminal-failure status is not a terminal-success status. -/
theorem status_sets_disjoint (s : String)
    (hf : failure_statuses.contains s = true) :
    success_statuses.contains s = false := by
  have : s = "rejected" ∨ s = "expired" := by
    simpa [failure_statuses] using hf
  rcases this with rfl | rfl <;> rfl

/-- On a terminal-success status whose corroborating consensus check fails,
the status comparisons keep polling. -/
theorem status_branch_success_poll (stat : String) (co : Option String)
    (st : MonitorState) (hs : success_statuses.contains (pyLower stat) = true)
    (hc : check_consensus_status co = false) :
    status_branch (.str stat) co st = .poll st := by
  show (if success_statuses.contains (pyLower stat) then
      (if check_consensus_status co then MonitorStep.exit_success st
        else MonitorStep.poll st)
    else if failure_statuses.contains (pyLower stat) then
      MonitorStep.exit_terminal stat st
    else MonitorStep.poll st) = MonitorStep.poll st
  rw [if_pos hs, if_neg (by simp [hc])]

/-- On a terminal-success status whose corroborating consensus check passes,
the status comparisons leave the loop in success. -/
theorem status_branch_success_exit (stat : String) (co : Option String)
    (st : MonitorState) (hs : success_statuses.contains (pyLower stat) = true)
    (hc : check_consensus_status co = true) :
    status_branch (.str stat) co st = .exit_success st := by
  show (if success_statuses.contains (pyLower stat) then
      (if check_consensus_status co then MonitorStep.exit_success st
        else MonitorStep.poll st)
    else if failure_statuses.contains (pyLower stat) then
      MonitorStep.exit_terminal stat st
    else MonitorStep.poll st) = MonitorStep.exit_success st
  rw [if_pos hs, if_pos hc]

/-- On a terminal-failure status the status comparisons leave the loop. -/
theorem status_branch_failure (stat : String) (co : Option String)
    (st : MonitorState) (hf : failure_statuses.contains (pyLower stat) = true) :
    status_branch (.str stat) co st = .exit_terminal stat st := by
  have hsucc := status_sets_disjoint _ hf
  show (if success_statuses.contains (pyLower stat) then
      (if check_consensus_status co then MonitorStep.exit_success st
        else MonitorStep.poll st)
    else if failure_statuses.contains (pyLower stat) then
      MonitorStep.exit_terminal stat st
    else MonitorStep.poll st) = MonitorStep.exit_terminal stat st
  rw [if_neg (by rw [hsucc]; simp), if_pos hf]

/-- One iteration at or past the trigger height: the post-trigger counter is
incremented, a passing consensus check exits in success, an exhausted cap
exits as max-checks, and otherwise the iteration falls through to the status
comparisons with the incremented counter. -/
theorem monitor_step_post_trigger (verbose : Bool) (obs : MonitorObs)
    (st : MonitorState) (h : Int) (ms : List (String × Jv)) (sv tr : Option Int)
    (hh : obs.height = some h) (h0 : h ≠ 0)
    (hskip : (st.last_height == some h && !verbose) = false)
    (hpd : obs.proposal_data = some (.obj ms)) (hms : ms ≠ [])
    (hsv : (if py_falsy_opt_int st.stop_vote_height then
        (nested_int_arg ms "args" "stop_vote_height" (.str "0")).map some
      else some st.stop_vote_height) = some sv)
    (htr : (if py_falsy_opt_int st.trigger_height then
        (nested_int_arg ms "trigger" "height" (.num 0)).map some
      else some st.trigger_height) = some tr)
    (htrig : tr.getD 0 ≤ h) :
    monitor_step verbose obs st =
      (if check_consensus_status obs.consensus1 then
        .exit_success ⟨some h, st.checks_after_trigger + 1, sv, tr⟩
      else if max_checks_after_trigger ≤ st.checks_after_trigger + 1 then
        .exit_max_checks ⟨some h, st.checks_after_trigger + 1, sv, tr⟩
      else
        status_branch (jGetD ms "status" (.str "unknown")) obs.consensus2
          ⟨some h, st.checks_after_trigger + 1, sv, tr⟩) := by
  have htv : py_truthy_jv (.obj ms) = true := by
    cases ms with
    | nil => exact absurd rfl hms
    | cons a t => rfl
  unfold monitor_step
  rw [hh]
  simp only [if_neg h0, hskip, Bool.false_eq_true, if_false, hpd]
  rw [hsv, htr]
  simp only [if_pos htrig]
  rw [if_pos htv]

/-- One iteration strictly below the trigger height: no counting, the
iteration goes straight to the status comparisons. -/
theorem monitor_step_pre_trigger (verbose : Bool) (obs : MonitorObs)
    (st : MonitorState) (h : Int) (ms : List (String × Jv)) (sv tr : Option Int)
    (hh : obs.height = some h) (h0 : h ≠ 0)
    (hskip : (st.last_height == some h && !verbose) = false)
    (hpd : obs.proposal_data = some (.obj ms)) (hms : ms ≠ [])
    (hsv : (if py_falsy_opt_int st.stop_vote_height then
        (nested_int_arg ms "args" "stop_vote_height" (.str "0")).map some
      else some st.stop_vote_height) = some sv)
    (htr : (if py_falsy_opt_int st.trigger_height then
        (nested_int_arg ms "trigger" "height" (.num 0)).map some
      else some st.trigger_height) = some tr)
    (htrig : ¬ tr.getD 0 ≤ h) :
    monitor_step verbose obs st =
      status_branch (jGetD ms "status" (.str "unknown")) obs.consensus1
        ⟨some h, st.checks_after_trigger, sv, tr⟩ := by
  have htv : py_truthy_jv (.obj ms) = true := by
    cases ms with
    | nil => exact absurd rfl hms
    | cons a t => rfl
  unfold monitor_step
  rw [hh]
  simp only [if_neg h0, hskip, Bool.false_eq_true, if_false, hpd]
  rw [hsv, htr]
  simp only [if_neg htrig]
  rw [if_pos htv]

/-- One step keeps the counter at most 19 while polling and at most 20 at an
exit, provided it was at most 19 before. -/
theorem monitor_step_checks_bound (verbose : Bool) (obs : MonitorObs)
    (st : MonitorState) (hle : st.checks_after_trigger ≤ 19) :
    ((monitor_step verbose obs st).isExit = false →
      (monitor_step verbose obs st).state.checks_after_trigger ≤ 19) ∧
    (monitor_step verbose obs st).state.checks_after_trigger ≤ 20 := by
  cases hh : obs.height with
  | none =>
      have hr : monitor_step verbose obs st = .retry st := by
        unfold monitor_step
        rw [hh]
      rw [hr]
      exact ⟨fun _ => hle, by simp only [MonitorStep.state]; omega⟩
  | some h =>
      by_cases h0 : h = 0
      · have hr : monitor_step verbose obs st = .retry st := by
          unfold monitor_step
          rw [hh]
          simp [h0]
        rw [hr]
        exact ⟨fun _ => hle, by simp only [MonitorStep.state]; omega⟩
      · by_cases hskip : (st.last_height == some h && !verbose) = true
        · have hr : monitor_step verbose obs st = .skip st := by
            unfold monitor_step
            rw [hh]
            simp [h0, hskip]
          rw [hr]
          exact ⟨fun _ => hle, by simp only [MonitorStep.state]; omega⟩
        · rw [Bool.not_eq_true] at hskip
          cases hpd : obs.proposal_data with
          | none =>
              have hr : monitor_step verbose obs st =
                  (if check_consensus_status obs.consensus1 then
                    .exit_success ⟨some h, st.checks_after_trigger,
                      st.stop_vote_height, st.trigger_height⟩
                  else .poll ⟨some h, st.checks_after_trigger,
                      st.stop_vote_height, st.trigger_height⟩) := by
                unfold monitor_step
                rw [hh, hpd]
                simp [h0, hskip]
              rw [hr]
              split <;> exact ⟨fun _ => hle, by simp only [MonitorStep.state]; omega⟩
          | some pd =>
              by_cases htv : py_truthy_jv pd = true
              · cases pd with
                | obj ms =>
                    have hms : ms ≠ [] := by
                      intro hnil
                      subst hnil
                      exact absurd htv (by decide)
                    cases hsv : (if py_falsy_opt_int st.stop_vote_height then
                        (nested_int_arg ms "args" "stop_vote_height" (.str "0")).map some
                      else some st.stop_vote_height) with
                    | none =>
                        have hr : monitor_step verbose obs st = .exit_exception
                            ⟨some h, st.checks_after_trigger,
                              st.stop_vote_height, st.trigger_height⟩ := by
                          unfold monitor_step
                          rw [hh, hpd]
                          simp only [if_neg h0, hskip, Bool.false_eq_true, if_false]
                          rw [if_pos htv]
                          rw [hsv]
                        rw [hr]
                        exact ⟨fun _ => hle, by simp only [MonitorStep.state]; omega⟩
                    | some sv =>
                        cases htr0 : (if py_falsy_opt_int st.trigger_height then
                            (nested_int_arg ms "trigger" "height" (.num 0)).map some
                          else some st.trigger_height) with
                        | none =>
                            have hr : monitor_step verbose obs st = .exit_exception
                                ⟨some h, st.checks_after_trigger,
                                  st.stop_vote_height, st.trigger_height⟩ := by
                              unfold monitor_step
                              rw [hh, hpd]
                              simp only [if_neg h0, hskip, Bool.false_eq_true, if_false]
                              rw [if_pos htv]
                              rw [hsv, htr0]
                            rw [hr]
                            exact ⟨fun _ => hle, by simp only [MonitorStep.state]; omega⟩
                        | some tr =>
                            by_cases htrig : tr.getD 0 ≤ h
                            · rw [monitor_step_post_trigger verbose obs st h ms sv tr
                                hh h0 hskip hpd hms hsv htr0 htrig]
                              split
                              · exact ⟨fun hfalse => by simp [MonitorStep.isExit] at hfalse,
                                  (by omega : st.checks_after_trigger + 1 ≤ 20)⟩
                              · split
                                · exact ⟨fun hfalse => by simp [MonitorStep.isExit] at hfalse,
                                    (by omega : st.checks_after_trigger + 1 ≤ 20)⟩
                                · rename_i hcap
                                  rw [max_checks_after_trigger] at hcap
                                  constructor
                                  · intro _
                                    rw [status_branch_state]
                                    exact (by omega : st.checks_after_trigger + 1 ≤ 19)
                                  · rw [status_branch_state]
                                    exact (by omega : st.checks_after_trigger + 1 ≤ 20)
                            · rw [monitor_step_pre_trigger verbose obs st h ms sv tr
                                hh h0 hskip hpd hms hsv htr0 htrig]
                              constructor
                              · intro _
                                rw [status_branch_state]
                                exact hle
                              · rw [status_branch_state]
                                exact (by omega : st.checks_after_trigger ≤ 20)
                | null => exact absurd htv (by decide)
                | bool b =>
                    have hr : monitor_step verbose obs st = .exit_exception
                        ⟨some h, st.checks_after_trigger,
                          st.stop_vote_height, st.trigger_height⟩ := by
                      unfold monitor_step
                      rw [hh, hpd]
                      simp [h0, hskip, htv]
                    rw [hr]
                    exact ⟨fun _ => hle, by simp only [MonitorStep.state]; omega⟩
                | num n =>
                    have hr : monitor_step verbose obs st = .exit_exception
                        ⟨some h, st.checks_after_trigger,
                          st.stop_vote_height, st.trigger_height⟩ := by
                      unfold monitor_step
                      rw [hh, hpd]
                      simp [h0, hskip, htv]
                    rw [hr]
                    exact ⟨fun _ => hle, by simp only [MonitorStep.state]; omega⟩
                | str s =>
                    have hr : monitor_step verbose obs st = .exit_exception
                        ⟨some h, st.checks_after_trigger,
                          st.stop_vote_height, st.trigger_height⟩ := by
                      unfold monitor_step
                      rw [hh, hpd]
                      simp [h0, hskip, htv]
                    rw [hr]
                    exact ⟨fun _ => hle, by simp only [MonitorStep.state]; omega⟩
                | arr es =>
                    have hr : monitor_step verbose obs st = .exit_exception
                        ⟨some h, st.checks_after_trigger,
                          st.stop_vote_height, st.trigger_height⟩ := by
                      unfold monitor_step
                      rw [hh, hpd]
                      simp [h0, hskip, htv]
                    rw [hr]
                    exact ⟨fun _ => hle, by simp only [MonitorStep.state]; omega⟩
              · rw [Bool.not_eq_true] at htv
                have hr : monitor_step verbose obs st =
                    (if check_consensus_status obs.consensus1 then
                      .exit_success ⟨some h, st.checks_after_trigger,
                        st.stop_vote_height, st.trigger_height⟩
                    else .poll ⟨some h, st.checks_after_trigger,
                        st.stop_vote_height, st.trigger_height⟩) := by
                  unfold monitor_step
                  rw [hh, hpd]
                  simp [h0, hskip, htv]
                rw [hr]
                split <;> exact ⟨fun _ => hle, by simp only [MonitorStep.state]; omega⟩

/-- Over any run that starts with the counter at most 19, the counter never
passes 20. -/
theorem monitor_run_checks_bound (verbose : Bool) :
    ∀ (obss : List MonitorObs) (st : MonitorState),
      st.checks_after_trigger ≤ 19 →
      (monitor_run verbose obss st).state.checks_after_trigger ≤ 20 := by
  intro obss
  induction obss with
  | nil =>
      intro st h
      simp only [monitor_run, MonitorStep.state]
      omega
  | cons o os ih =>
      intro st h
      have hb := monitor_step_checks_bound verbose o st h
      cases hs : monitor_step verbose o st with
      | retry st' =>
          rw [hs] at hb
          simp only [monitor_run, hs]
          exact ih st' (hb.1 rfl)
      | skip st' =>
          rw [hs] at hb
          simp only [monitor_run, hs]
          exact ih st' (hb.1 rfl)
      | poll st' =>
          rw [hs] at hb
          simp only [monitor_run, hs]
          exact ih st' (hb.1 rfl)
      | exit_success st' =>
          rw [hs] at hb
          simp only [monitor_run, hs]
          exact hb.2
      | exit_max_checks st' =>
          rw [hs] at hb
          simp only [monitor_run, hs]
          exact hb.2
      | exit_terminal s st' =>
          rw [hs] at hb
          simp only [monitor_run, hs]
          exact hb.2
      | exit_exception st' =>
          rw [hs] at hb
          simp only [monitor_run, hs]
          exact hb.2

/-- C3: at or past the trigger height, a check on truthy proposal data exits
in confirmed success as soon as the consensus identity matches; otherwise the
post-trigger counter is incremented, the loop exits as max-checks-exhausted
once the counter reaches the cap of 20, and a run that starts counting from
zero therefore performs at most 20 post-trigger checks. An iteration whose
proposal data is absent or falsy (an empty object) performs no post-trigger
check and leaves the counter unchanged. The consensus identity check accepts
the primary `consensusName` field or the nested fallback `consensus.name`,
case-insensitively. -/
theorem monitor_post_trigger_cap_spec :
    (∀ (verbose : Bool) (obs : MonitorObs) (st : MonitorState) (h : Int)
        (ms : List (String × Jv)) (sv tr : Option Int),
      obs.height = some h → h ≠ 0 →
      (st.last_height == some h && !verbose) = false →
      obs.proposal_data = some (.obj ms) → ms ≠ [] →
      (if py_falsy_opt_int st.stop_vote_height then
          (nested_int_arg ms "args" "stop_vote_height" (.str "0")).map some
        else some st.stop_vote_height) = some sv →
      (if py_falsy_opt_int st.trigger_height then
          (nested_int_arg ms "trigger" "height" (.num 0)).map some
        else some st.trigger_height) = some tr →
      tr.getD 0 ≤ h →
      ((check_consensus_status obs.consensus1 = true →
          monitor_step verbose obs st
            = .exit_success ⟨some h, st.checks_after_trigger + 1, sv, tr⟩) ∧
        (check_consensus_status obs.consensus1 = false →
          20 ≤ st.checks_after_trigger + 1 →
          monitor_step verbose obs st
            = .exit_max_checks ⟨some h, st.checks_after_trigger + 1, sv, tr⟩) ∧
        (check_consensus_status obs.consensus1 = false →
          st.checks_after_trigger + 1 < 20 →
          monitor_step verbose obs st
            = status_branch (jGetD ms "status" (.str "unknown")) obs.consensus2
                ⟨some h, st.checks_after_trigger + 1, sv, tr⟩))) ∧
    (∀ (verbose : Bool) (obs : MonitorObs) (st : MonitorState) (h : Int),
      obs.height = some h → h ≠ 0 →
      (st.last_height == some h && !verbose) = false →
      (obs.proposal_data = none ∨ obs.proposal_data = some (.obj [])) →
      ((check_consensus_status obs.consensus1 = true →
          monitor_step verbose obs st = .exit_success
            ⟨some h, st.checks_after_trigger, st.stop_vote_height, st.trigger_height⟩) ∧
        (check_consensus_status obs.consensus1 = false →
          monitor_step verbose obs st = .poll
            ⟨some h, st.checks_after_trigger, st.stop_vote_height, st.trigger_height⟩))) ∧
    check_consensus_status (some statusTdpos) = true ∧
    check_consensus_status (some statusNested) = true ∧
    check_consensus_status (some statusSingle) = false ∧
    max_checks_after_trigger = 20 ∧
    (∀ (verbose : Bool) (obss : List MonitorObs) (st : MonitorState),
      st.checks_after_trigger = 0 →
      (monitor_run verbose obss st).state.checks_after_trigger ≤ 20) := by
  refine ⟨?_, ?_, rfl, rfl, rfl, rfl, ?_⟩
  · intro verbose obs st h ms sv tr hh h0 hskip hpd hms hsv htr htrig
    rw [monitor_step_post_trigger verbose obs st h ms sv tr hh h0 hskip hpd hms hsv htr htrig]
    refine ⟨fun hc => ?_, fun hc hcap => ?_, fun hc hcap => ?_⟩
    · rw [if_pos hc]
    · rw [if_neg (by simp [hc]), if_pos (by simpa [max_checks_after_trigger] using hcap)]
    · rw [if_neg (by simp [hc]), if_neg (by simp [max_checks_after_trigger]; omega)]
  · intro verbose obs st h hh h0 hskip hpd
    have hr : monitor_step verbose obs st =
        (if check_consensus_status obs.consensus1 then
          .exit_success ⟨some h, st.checks_after_trigger,
            st.stop_vote_height, st.trigger_height⟩
        else .poll ⟨some h, st.checks_after_trigger,
            st.stop_vote_height, st.trigger_height⟩) := by
      cases hpd with
      | inl hn =>
          unfold monitor_step
          rw [hh, hn]
          simp [h0, hskip]
      | inr he =>
          unfold monitor_step
          rw [hh, he]
          simp [h0, hskip, py_truthy_jv]
    refine ⟨fun hc => ?_, fun hc => ?_⟩
    · rw [hr, if_pos hc]
    · rw [hr, if_neg (by simp [hc])]
  · intro verbose obss st h0
    exact monitor_run_checks_bound verbose obss st (by omega)

/-- C3 witness: a matching consensus exits in success on the first
post-trigger check; a failing one at counter 19 exhausts the cap; an
iteration observing an empty proposal object polls on without touching the
counter; the empty run respects the bound — all through the theorem. -/
theorem monitor_post_trigger_cap_spec_witness :
    monitor_step false
        ⟨some 1050, some (.obj [("status", .str "voting")]), some statusTdpos, none⟩
        ⟨none, 0, some 1040, some 1050⟩
      = .exit_success ⟨some 1050, 0 + 1, some 1040, some 1050⟩ ∧
    monitor_step false
        ⟨some 1050, some (.obj [("status", .str "voting")]), some statusSingle, none⟩
        ⟨none, 19, some 1040, some 1050⟩
      = .exit_max_checks ⟨some 1050, 19 + 1, some 1040, some 1050⟩ ∧
    monitor_step false
        ⟨some 1050, some (.obj []), some statusSingle, none⟩
        ⟨none, 7, some 1040, some 1050⟩
      = .poll ⟨some 1050, 7, some 1040, some 1050⟩ ∧
    (monitor_run false [] ⟨none, 0, none, none⟩).state.checks_after_trigger ≤ 20 :=
  ⟨(monitor_post_trigger_cap_spec.1 false
      ⟨some 1050, some (.obj [("status", .str "voting")]), some statusTdpos, none⟩
      ⟨none, 0, some 1040, some 1050⟩ 1050 [("status", .str "voting")]
      (some 1040) (some 1050) rfl (by decide) rfl rfl (List.cons_ne_nil _ _)
      rfl rfl (by decide)).1 rfl,
   (monitor_post_trigger_cap_spec.1 false
      ⟨some 1050, some (.obj [("status", .str "voting")]), some statusSingle, none⟩
      ⟨none, 19, some 1040, some 1050⟩ 1050 [("status", .str "voting")]
      (some 1040) (some 1050) rfl (by decide) rfl rfl (List.cons_ne_nil _ _)
      rfl rfl (by decide)).2.1 rfl (by decide),
   (monitor_post_trigger_cap_spec.2.1 false
      ⟨some 1050, some (.obj []), some statusSingle, none⟩
      ⟨none, 7, some 1040, some 1050⟩ 1050 rfl (by decide) rfl (Or.inr rfl)).2 rfl,
   monitor_post_trigger_cap_spec.2.2.2.2.2.2 false [] ⟨none, 0, none, none⟩ rfl⟩

/-- C4 counterexample: with status `passed` (terminal success) and a failing
consensus check, an iteration at the trigger height with 19 prior
post-trigger checks exits as max-checks-exhausted — the loop does not keep
polling, refuting the claim's unconditional "keeps polling instead of
exiting". -/
theorem monitor_success_status_gate_refuted :
    success_statuses.contains (pyLower "passed") = true ∧
    check_consensus_status (some statusSingle) = false ∧
    monitor_step false
        ⟨some 1050, some (.obj [("status", .str "passed")]),
          some statusSingle, some statusSingle⟩
        ⟨none, 19, some 1040, some 1050⟩
      = .exit_max_checks ⟨some 1050, 20, some 1040, some 1050⟩ ∧
    (monitor_step false
        ⟨some 1050, some (.obj [("status", .str "passed")]),
          some statusSingle, some statusSingle⟩
        ⟨none, 19, some 1040, some 1050⟩).isExit = true :=
  ⟨rfl, rfl, rfl, rfl⟩

/-- C4 amended: on a terminal-success status the loop exits in confirmed
success only if the consensus check corroborates it; when the check fails,
the iteration keeps polling — unless the same iteration exhausts the
post-trigger cap, which exits as max-checks-exhausted instead. -/
theorem monitor_success_status_double_confirm (verbose : Bool) (obs : MonitorObs)
    (st : MonitorState) (h : Int) (ms : List (String × Jv)) (sv tr : Option Int)
    (stat : String)
    (hh : obs.height = some h) (h0 : h ≠ 0)
    (hskip : (st.last_height == some h && !verbose) = false)
    (hpd : obs.proposal_data = some (.obj ms))
    (hsv : (if py_falsy_opt_int st.stop_vote_height then
        (nested_int_arg ms "args" "stop_vote_height" (.str "0")).map some
      else some st.stop_vote_height) = some sv)
    (htr : (if py_falsy_opt_int st.trigger_height then
        (nested_int_arg ms "trigger" "height" (.num 0)).map some
      else some st.trigger_height) = some tr)
    (hstat : jGetD ms "status" (.str "unknown") = .str stat)
    (hsucc : success_statuses.contains (pyLower stat) = true)
    (hc1 : check_consensus_status obs.consensus1 = false)
    (hc2 : check_consensus_status obs.consensus2 = false) :
    (∀ st', monitor_step verbose obs st ≠ .exit_success st') ∧
    (tr.getD 0 ≤ h → st.checks_after_trigger + 1 < 20 →
      monitor_step verbose obs st
        = .poll ⟨some h, st.checks_after_trigger + 1, sv, tr⟩) ∧
    (¬ tr.getD 0 ≤ h →
      monitor_step verbose obs st
        = .poll ⟨some h, st.checks_after_trigger, sv, tr⟩) := by
  have hms : ms ≠ [] := by
    intro hnil
    subst hnil
    rw [show jGetD ([] : List (String × Jv)) "status" (.str "unknown")
        = .str "unknown" from rfl] at hstat
    injection hstat with h2
    subst h2
    exact absurd hsucc (by decide)
  refine ⟨?_, ?_, ?_⟩
  · intro st' heq
    by_cases htrig : tr.getD 0 ≤ h
    · rw [monitor_step_post_trigger verbose obs st h ms sv tr hh h0 hskip hpd hms hsv htr htrig,
        if_neg (by simp [hc1])] at heq
      by_cases hcap : max_checks_after_trigger ≤ st.checks_after_trigger + 1
      · rw [if_pos hcap] at heq
        exact MonitorStep.noConfusion heq
      · rw [if_neg hcap, hstat, status_branch_success_poll _ _ _ hsucc hc2] at heq
        exact MonitorStep.noConfusion heq
    · rw [monitor_step_pre_trigger verbose obs st h ms sv tr hh h0 hskip hpd hms hsv htr htrig,
        hstat, status_branch_success_poll _ _ _ hsucc hc1] at heq
      exact MonitorStep.noConfusion heq
  · intro htrig hcap
    rw [monitor_step_post_trigger verbose obs st h ms sv tr hh h0 hskip hpd hms hsv htr htrig,
      if_neg (by simp [hc1]), if_neg (by simp [max_checks_after_trigger]; omega),
      hstat, status_branch_success_poll _ _ _ hsucc hc2]
  · intro htrig
    rw [monitor_step_pre_trigger verbose obs st h ms sv tr hh h0 hskip hpd hms hsv htr htrig,
      hstat, status_branch_success_poll _ _ _ hsucc hc1]

/-- C4 amended witness: below the trigger height, a `passed` status with a
failing consensus check keeps polling, through the theorem. -/
theorem monitor_success_status_double_confirm_witness :
    monitor_step false
        ⟨some 1045, some (.obj [("status", .str "passed")]),
          some statusSingle, some statusSingle⟩
        ⟨none, 0, some 1040, some 1050⟩
      = .poll ⟨some 1045, 0, some 1040, some 1050⟩ :=
  (monitor_success_status_double_confirm false
      ⟨some 1045, some (.obj [("status", .str "passed")]),
        some statusSingle, some statusSingle⟩
      ⟨none, 0, some 1040, some 1050⟩ 1045 [("status", .str "passed")]
      (some 1040) (some 1050) "passed"
      rfl (by decide) rfl rfl rfl rfl rfl rfl rfl rfl).2.2 (by decide)

/-- C5: in any iteration that retrieved a proposal status equal,
case-insensitively, to `rejected` or `expired`, the loop exits — whatever
the current height is relative to the trigger height. -/
theorem monitor_terminal_status_exits (verbose : Bool) (obs : MonitorObs)
    (st : MonitorState) (h : Int) (ms : List (String × Jv)) (sv tr : Option Int)
    (stat : String)
    (hh : obs.height = some h) (h0 : h ≠ 0)
    (hskip : (st.last_height == some h && !verbose) = false)
    (hpd : obs.proposal_data = some (.obj ms))
    (hsv : (if py_falsy_opt_int st.stop_vote_height then
        (nested_int_arg ms "args" "stop_vote_height" (.str "0")).map some
      else some st.stop_vote_height) = some sv)
    (htr : (if py_falsy_opt_int st.trigger_height then
        (nested_int_arg ms "trigger" "height" (.num 0)).map some
      else some st.trigger_height) = some tr)
    (hstat : jGetD ms "status" (.str "unknown") = .str stat)
    (hfail : failure_statuses.contains (pyLower stat) = true) :
    (monitor_step verbose obs st).isExit = true := by
  have hms : ms ≠ [] := by
    intro hnil
    subst hnil
    rw [show jGetD ([] : List (String × Jv)) "status" (.str "unknown")
        = .str "unknown" from rfl] at hstat
    injection hstat with h2
    subst h2
    exact absurd hfail (by decide)
  by_cases htrig : tr.getD 0 ≤ h
  · rw [monitor_step_post_trigger verbose obs st h ms sv tr hh h0 hskip hpd hms hsv htr htrig]
    by_cases hc : check_consensus_status obs.consensus1 = true
    · rw [if_pos hc]
      rfl
    · rw [Bool.not_eq_true] at hc
      rw [if_neg (by simp [hc])]
      by_cases hcap : max_checks_after_trigger ≤ st.checks_after_trigger + 1
      · rw [if_pos hcap]
        rfl
      · rw [if_neg hcap, hstat, status_branch_failure _ _ _ hfail]
        rfl
  · rw [monitor_step_pre_trigger verbose obs st h ms sv tr hh h0 hskip hpd hms hsv htr htrig,
      hstat, status_branch_failure _ _ _ hfail]
    rfl

/-- C5 witness: an uppercase `REJECTED` status past the trigger height exits
the loop, through the theorem. -/
theorem monitor_terminal_status_exits_witness :
    (monitor_step false
        ⟨some 1060, some (.obj [("status", .str "REJECTED")]),
          some statusSingle, some statusSingle⟩
        ⟨none, 0, some 1040, some 1050⟩).isExit = true :=
  monitor_terminal_status_exits false
    ⟨some 1060, some (.obj [("status", .str "REJECTED")]),
      some statusSingle, some statusSingle⟩
    ⟨none, 0, some 1040, some 1050⟩ 1060 [("status", .str "REJECTED")]
    (some 1040) (some 1050) "REJECTED"
    rfl (by decide) rfl rfl rfl rfl rfl rfl

/-- C7 witness: a concrete round trip and a concrete marker-free input,
through the theorem. -/
theorem extract_json_after_marker_spec_witness :
    hasSub "Query OK. ".data markerCR = false ∧
    extract_json_after_marker
        ⟨"Query OK. ".data ++ (markerCR ++ dumpsL (.obj [("status", .str "voting")]))⟩
      = some (.obj [("status", .str "voting")]) ∧
    hasSub "no label here".data markerCRshort = false ∧
    extract_json_after_marker "no label here" = none :=
  ⟨rfl,
   extract_json_after_marker_spec.1 "Query OK. ".data (.obj [("status", .str "voting")]) rfl,
   rfl,
   extract_json_after_marker_spec.2.1 "no label here" rfl⟩

end XProposer
